import Mathlib

/-!
# Scarlet State Machines: a shallow embedding of the FSM runtime

The development embeds `USSM_StateBase` (SSM_StateBase.h / .cpp) and
`USSM_StateMachine` (SSM_StateMachine.h / .cpp) and proves properties of the
tick (`UpdateStateMachine`), the commit (`StateTransition`) and the
registration operations.

Modelling conventions.

* `uint8` identities and object addresses are natural numbers; address `0`
  is `nullptr`.
* `TMap` is an association list with unique keys.  `operator[]` on a `TMap`
  is `FindChecked`: looking up a missing key is a fault (`Fault.MissingKey`).
* State objects live in a heap `TMap Nat USSM_StateBase` keyed by address.
  A member call through a pointer that is null or not live is a fault
  (`Fault.NullPointer`).
* The host supplied virtual hooks (`EnterState`, `ExitState`, `UpdateState`,
  `OnUpdateStateMachine`, `STATEMACHINE_OnSetStateMachine`), the multicast
  delegate `OnStateChanged` and the condition delegates are calls out of the
  runtime.  Each such call is recorded as an `Event` in the trace returned by
  the operation; the hooks are assumed not to call back into the machine.
* What a condition delegate does is a parameter `CondEnv`: for an owner
  object and a function name it says whether the delegate is bound, and
  which boolean `Execute` returns.
* `DeltaTime` is passed through unchanged; it is represented by the bit
  pattern of the float, a natural number.
* The loops of `AutoTransitionRegistration` have `uint8` counters, incremented
  modulo 256; they are embedded with fuel, and `none` is the result when the
  fuel runs out before the loops end.  `TArray::operator[]` is range checked
  (`Fault.IndexOutOfRange`).
-/

namespace SSM

/-- Faults of the runtime: the two ways in which the C++ code can crash. -/
inductive Fault where
  /-- `TMap::operator[]` (FindChecked) on a key that is not in the map. -/
  | MissingKey
  /-- A member call through a null pointer or a pointer to no live object. -/
  | NullPointer
  /-- `TArray::operator[]` with an index outside the array. -/
  | IndexOutOfRange
  deriving DecidableEq, Repr

/-- Unreal's `TMap<K, V>`: an association list with unique keys. -/
abbrev TMap (K V : Type) := List (K × V)

namespace TMap

variable {K V : Type} [DecidableEq K]

/-- `TMap::Find`: the value stored under a key, if any. -/
def Find : TMap K V → K → Option V
  | [], _ => none
  | (k', v) :: r, k => if k' = k then some v else Find r k

/-- `TMap::Contains`. -/
def Contains (m : TMap K V) (k : K) : Bool := (Find m k).isSome

/-- `TMap::Add`: replaces the value of an existing key, else adds the pair. -/
def Add : TMap K V → K → V → TMap K V
  | [], k, v => [(k, v)]
  | (k', v') :: r, k, v => if k' = k then (k, v) :: r else (k', v') :: Add r k v

/-- `TMap::Remove`: removes the pair stored under a key. -/
def Remove (m : TMap K V) (k : K) : TMap K V := m.filter (fun e => decide (e.1 ≠ k))

/-- `TMap::operator[]`: `FindChecked`, a fault when the key is missing. -/
def Index (m : TMap K V) (k : K) : Except Fault V :=
  match Find m k with
  | some v => .ok v
  | none => .error Fault.MissingKey

end TMap

/-- Fields of `USSM_StateBase` (SSM_StateBase.h:17-29); a new object is zero filled. -/
structure USSM_StateBase where
  /-- `uint8 StateID`. -/
  StateID : Nat := 0
  /-- `USSM_StateMachine* StateMachine`, `0` is `nullptr`. -/
  StateMachine : Nat := 0
  /-- `bool Locked = false`. -/
  Locked : Bool := false
  deriving DecidableEq, Repr

/-- `USSM_StateBase::SetStateID` (SSM_StateBase.h:56). -/
def USSM_StateBase.SetStateID (s : USSM_StateBase) (InStateID : Nat) : USSM_StateBase :=
  { s with StateID := InStateID }

/-- `USSM_StateBase::GetStateID` (SSM_StateBase.h:59). -/
def USSM_StateBase.GetStateID (s : USSM_StateBase) : Nat := s.StateID

/-- `USSM_StateBase::SetStateLocked` (SSM_StateBase.h:80). -/
def USSM_StateBase.SetStateLocked (s : USSM_StateBase) (InLocked : Bool) : USSM_StateBase :=
  { s with Locked := InLocked }

/-- `USSM_StateBase::IsLocked` (SSM_StateBase.h:88). -/
def USSM_StateBase.IsLocked (s : USSM_StateBase) : Bool := s.Locked

/-- `USSM_StateBase::GetStateMachine` (SSM_StateBase.h:73). -/
def USSM_StateBase.GetStateMachine (s : USSM_StateBase) : Nat := s.StateMachine

/-- The heap of state objects, keyed by address. -/
abbrev ObjectHeap := TMap Nat USSM_StateBase

/-- `IsValid(ptr)`: the pointer is not null and refers to a live object. -/
def IsValid (Objects : ObjectHeap) (p : Nat) : Bool :=
  decide (p ≠ 0) && TMap.Contains Objects p

/-- Reading through a pointer `p->`: a fault when `p` is null or not live. -/
def Deref (Objects : ObjectHeap) (p : Nat) : Except Fault USSM_StateBase :=
  if p = 0 then .error Fault.NullPointer
  else match TMap.Find Objects p with
    | some o => .ok o
    | none => .error Fault.NullPointer

/-- `FTransitionConditionDelegate` (SSM_StateMachine.h:11): the object and the
function name that `BindUFunction` stored; a default delegate has neither. -/
structure FTransitionConditionDelegate where
  /-- The object the function is looked up on, `0` when unset. -/
  Object : Nat := 0
  /-- The name of the function. -/
  FunctionName : String := "None"
  deriving DecidableEq, Repr

/-- `BindUFunction(Object, FunctionName)`: stores both, checks nothing. -/
def FTransitionConditionDelegate.BindUFunction (_d : FTransitionConditionDelegate)
    (InObject : Nat) (InFunctionName : String) : FTransitionConditionDelegate :=
  { Object := InObject, FunctionName := InFunctionName }

/-- `FStateTransition` (SSM_StateMachine.h:19-46); the defaults are those of
the default constructor (line 42). -/
structure FStateTransition where
  /-- `uint8 OriginState`. -/
  OriginState : Nat := 0
  /-- `uint8 TargetState`. -/
  TargetState : Nat := 0
  /-- `FName ConditionFunctionName`. -/
  ConditionFunctionName : String := "None"
  /-- `UObject* CondtionFunctionOwner`, `0` is `nullptr`. -/
  CondtionFunctionOwner : Nat := 0
  /-- `FTransitionConditionDelegate ConditionDelegate`. -/
  ConditionDelegate : FTransitionConditionDelegate := {}
  deriving DecidableEq, Repr

/-- The four argument constructor of `FStateTransition` (SSM_StateMachine.h:44-45). -/
def FStateTransition.Make (InOriginState InTargetState : Nat) (InConditionFunctionName : String)
    (InConditionFunctionOwner : Nat) : FStateTransition :=
  { OriginState := InOriginState, TargetState := InTargetState,
    ConditionFunctionName := InConditionFunctionName,
    CondtionFunctionOwner := InConditionFunctionOwner }

/-- The host side of condition delegates: for an owner object and a function
name, `none` when a delegate on them is not bound (no such object or no such
UFUNCTION), `some b` when it is bound and `Execute` returns `b`. -/
abbrev CondEnv := Nat → String → Option Bool

/-- `ConditionDelegate.IsBound()`. -/
def FTransitionConditionDelegate.IsBound (Env : CondEnv) (d : FTransitionConditionDelegate) : Bool :=
  (Env d.Object d.FunctionName).isSome

/-- `ConditionDelegate.Execute()`. -/
def FTransitionConditionDelegate.Execute (Env : CondEnv) (d : FTransitionConditionDelegate) : Bool :=
  (Env d.Object d.FunctionName).getD false

/-- Fields of `USSM_StateMachine` (SSM_StateMachine.h:59-75); the defaults are
those of a freshly constructed machine. -/
structure USSM_StateMachine where
  /-- `TMap<uint8, USSM_StateBase*> States`. -/
  States : TMap Nat Nat := []
  /-- `uint8 BufferedNewState = 0`. -/
  BufferedNewState : Nat := 0
  /-- `uint8 ActiveState = 0`. -/
  ActiveState : Nat := 0
  /-- `TMap<uint8, TArray<FStateTransition>> TransitionMap`. -/
  TransitionMap : TMap Nat (List FStateTransition) := []
  deriving DecidableEq, Repr

/-- Calls out of the runtime, in the order in which they are made. -/
inductive Event where
  /-- `ConditionDelegate.Execute()` on a bound delegate, with what it returned. -/
  | ConditionExecute (Object : Nat) (FunctionName : String) (Result : Bool)
  /-- `ExitState()` on the object at `State`; `ActiveState` as it is during the call. -/
  | ExitState (State : Nat) (ActiveState : Nat)
  /-- `EnterState()` on the object at `State`; `ActiveState` as it is during the call. -/
  | EnterState (State : Nat) (ActiveState : Nat)
  /-- `UpdateState(DeltaTime)` on the object at `State`. -/
  | UpdateState (State : Nat) (DeltaTime : Nat)
  /-- `OnStateChanged.Broadcast(PreviousState, NewState)`. -/
  | OnStateChanged (PreviousState NewState : Nat)
  /-- The assignment `TransitionHappened = true`, in the forced branch
  (SSM_StateMachine.cpp:25) or in the conditional branch (line 40). -/
  | TransitionHappened (Forced : Bool)
  /-- `OnUpdateStateMachine(DeltaTime)`, the hook after the tick. -/
  | OnUpdateStateMachine (DeltaTime : Nat)
  /-- `STATEMACHINE_OnSetStateMachine()` on the object at `State`. -/
  | STATEMACHINE_OnSetStateMachine (State : Nat)
  deriving DecidableEq, Repr

/-- The expression `States[Key]->`: index the map, then go through the pointer.
Returns the address of the state object. -/
def StateAt (Objects : ObjectHeap) (States : TMap Nat Nat) (Key : Nat) : Except Fault Nat :=
  match TMap.Index States Key with
  | .error e => .error e
  | .ok p =>
    match Deref Objects p with
    | .error e => .error e
    | .ok _ => .ok p

/-- `USSM_StateMachine::StateTransition` (SSM_StateMachine.cpp:55-66). -/
def StateTransition (Objects : ObjectHeap) (M : USSM_StateMachine) (InNewState : Nat) :
    Except Fault (USSM_StateMachine × List Event) :=
  let PreviousState := M.ActiveState
  -- if (ActiveState != 0) States[ActiveState]->ExitState();
  match (if M.ActiveState ≠ 0 then
          match StateAt Objects M.States M.ActiveState with
          | .error e => .error e
          | .ok p => .ok [Event.ExitState p M.ActiveState]
        else (.ok [] : Except Fault (List Event))) with
  | .error e => .error e
  | .ok exitEvents =>
    -- ActiveState = InNewState;
    let M1 := { M with ActiveState := InNewState }
    -- States[ActiveState]->EnterState();
    match StateAt Objects M1.States M1.ActiveState with
    | .error e => .error e
    | .ok p =>
      -- OnStateChanged.Broadcast(PreviousState, InNewState);
      .ok (M1, exitEvents ++ [Event.EnterState p M1.ActiveState,
                              Event.OnStateChanged PreviousState InNewState])

/-- The loop of `UpdateStateMachine` over `TransitionMap[ActiveState]`
(SSM_StateMachine.cpp:34-43).  Returns the machine, the trace and the value of
`TransitionHappened`. -/
def ScanTransitions (Env : CondEnv) (Objects : ObjectHeap) (M : USSM_StateMachine) :
    List FStateTransition → Except Fault (USSM_StateMachine × List Event × Bool)
  | [] => .ok (M, [], false)
  | Transition :: rest =>
    -- Transition.ConditionDelegate.IsBound() && Transition.ConditionDelegate.Execute()
    if Transition.ConditionDelegate.IsBound Env then
      if Transition.ConditionDelegate.Execute Env then
        match StateTransition Objects M Transition.TargetState with
        | .error e => .error e
        | .ok (M1, ev) =>
          -- TransitionHappened = true; break;
          .ok (M1, Event.ConditionExecute Transition.ConditionDelegate.Object
                      Transition.ConditionDelegate.FunctionName true :: ev
                    ++ [Event.TransitionHappened false], true)
      else
        match ScanTransitions Env Objects M rest with
        | .error e => .error e
        | .ok (M1, ev, happened) =>
          .ok (M1, Event.ConditionExecute Transition.ConditionDelegate.Object
                      Transition.ConditionDelegate.FunctionName false :: ev, happened)
    else ScanTransitions Env Objects M rest

/-- The condition `TransitionMap.Contains(ActiveState) && IsValid(States[ActiveState])`
(SSM_StateMachine.cpp:30); `&&` does not evaluate its right side when the left is false. -/
def ConditionalGuard (Objects : ObjectHeap) (M : USSM_StateMachine) : Except Fault Bool :=
  if TMap.Contains M.TransitionMap M.ActiveState then
    match TMap.Index M.States M.ActiveState with
    | .error e => .error e
    | .ok p => .ok (IsValid Objects p)
  else .ok false

/-- The branches of `UpdateStateMachine` that may commit a transition
(SSM_StateMachine.cpp:20-45).  Returns the machine, the trace and the value of
`TransitionHappened`. -/
def CommitBranches (Env : CondEnv) (Objects : ObjectHeap) (M : USSM_StateMachine) :
    Except Fault (USSM_StateMachine × List Event × Bool) :=
  if M.BufferedNewState ≠ 0 then
    -- StateTransition(BufferedNewState); TransitionHappened = true; BufferedNewState = 0;
    match StateTransition Objects M M.BufferedNewState with
    | .error e => .error e
    | .ok (M1, ev) =>
      .ok ({ M1 with BufferedNewState := 0 }, ev ++ [Event.TransitionHappened true], true)
  else
    match ConditionalGuard Objects M with
    | .error e => .error e
    | .ok false => .ok (M, [], false)
    | .ok true =>
      -- if (!States[ActiveState]->IsLocked())
      match TMap.Index M.States M.ActiveState with
      | .error e => .error e
      | .ok p =>
        match Deref Objects p with
        | .error e => .error e
        | .ok o =>
          if !o.IsLocked then
            -- for (auto& Transition: TransitionMap[ActiveState])
            match TMap.Index M.TransitionMap M.ActiveState with
            | .error e => .error e
            | .ok Transitions => ScanTransitions Env Objects M Transitions
          else .ok (M, [], false)

/-- `USSM_StateMachine::UpdateStateMachine` (SSM_StateMachine.cpp:18-51). -/
def UpdateStateMachine (Env : CondEnv) (Objects : ObjectHeap) (M : USSM_StateMachine)
    (DeltaTime : Nat) : Except Fault (USSM_StateMachine × List Event) :=
  match CommitBranches Env Objects M with
  | .error e => .error e
  | .ok (M1, ev, TransitionHappened) =>
    -- if (!TransitionHappened) States[ActiveState]->UpdateState(DeltaTime);
    match (if !TransitionHappened then
            match StateAt Objects M1.States M1.ActiveState with
            | .error e => .error e
            | .ok p => .ok [Event.UpdateState p DeltaTime]
          else (.ok [] : Except Fault (List Event))) with
    | .error e => .error e
    | .ok updateEvents =>
      -- OnUpdateStateMachine(DeltaTime);
      .ok (M1, ev ++ updateEvents ++ [Event.OnUpdateStateMachine DeltaTime])

/-- `USSM_StateMachine::ForceCallStateTransition` (SSM_StateMachine.h:143). -/
def ForceCallStateTransition (M : USSM_StateMachine) (InNewState : Nat) : USSM_StateMachine :=
  { M with BufferedNewState := InNewState }

/-- `USSM_StateMachine::GetActiveState` (SSM_StateMachine.h:147). -/
def GetActiveState (M : USSM_StateMachine) : Nat := M.ActiveState

/-- `USSM_StateMachine::RemoveState` (SSM_StateMachine.cpp:83-90). -/
def RemoveState (M : USSM_StateMachine) (InStateID : Nat) : USSM_StateMachine :=
  let M1 := if InStateID = M.ActiveState then { M with ActiveState := 0 } else M
  if TMap.Contains M1.States InStateID then
    { M1 with States := TMap.Remove M1.States InStateID }
  else M1

/-- `USSM_StateMachine::GetState` (SSM_StateMachine.cpp:93-99); `0` is `nullptr`. -/
def GetState (M : USSM_StateMachine) (InStateID : Nat) : Nat :=
  if TMap.Contains M.States InStateID then
    match TMap.Find M.States InStateID with
    | some p => p
    | none => 0
  else 0

/-- `USSM_StateMachine::RegisterTransitionSourced` (SSM_StateMachine.cpp:105-123);
`this` is the address of the machine. -/
def RegisterTransitionSourced (this : Nat) (M : USSM_StateMachine)
    (InStateTransition : FStateTransition) : USSM_StateMachine :=
  -- FStateTransition NewTransition;  (default constructor: OriginState stays 0)
  let NewTransition : FStateTransition := {}
  let NewTransition := { NewTransition with TargetState := InStateTransition.TargetState }
  let NewTransition :=
    { NewTransition with ConditionFunctionName := InStateTransition.ConditionFunctionName }
  let NewTransition :=
    { NewTransition with CondtionFunctionOwner := InStateTransition.CondtionFunctionOwner }
  -- if (!NewTransition.CondtionFunctionOwner) NewTransition.CondtionFunctionOwner = this;
  let NewTransition :=
    if NewTransition.CondtionFunctionOwner = 0 then
      { NewTransition with CondtionFunctionOwner := this }
    else NewTransition
  let NewTransition :=
    { NewTransition with
      ConditionDelegate := NewTransition.ConditionDelegate.BindUFunction
        NewTransition.CondtionFunctionOwner InStateTransition.ConditionFunctionName }
  match TMap.Find M.TransitionMap InStateTransition.OriginState with
  | some Transitions =>
    -- TransitionMap[OriginState].Add(NewTransition);
    { M with TransitionMap :=
        TMap.Add M.TransitionMap InStateTransition.OriginState (Transitions ++ [NewTransition]) }
  | none =>
    -- TransitionMap.Add(OriginState, {NewTransition});
    { M with TransitionMap :=
        TMap.Add M.TransitionMap InStateTransition.OriginState [NewTransition] }

/-- `USSM_StateMachine::RegisterTransition` (SSM_StateMachine.h:158). -/
def RegisterTransition (this : Nat) (M : USSM_StateMachine)
    (InStateTransition : FStateTransition) : USSM_StateMachine :=
  RegisterTransitionSourced this M InStateTransition

/-- `USSM_StateMachine::RegisterTransitionLocal` (SSM_StateMachine.h:162). -/
def RegisterTransitionLocal (this : Nat) (M : USSM_StateMachine)
    (InOriginState InTargetState : Nat) (InConditionFunctionName : String) : USSM_StateMachine :=
  RegisterTransitionSourced this M
    (FStateTransition.Make InOriginState InTargetState InConditionFunctionName this)

/-- `USSM_StateMachine::RegisterMultipleTransitions` (SSM_StateMachine.cpp:127-131). -/
def RegisterMultipleTransitions (this : Nat) (M : USSM_StateMachine) :
    List FStateTransition → USSM_StateMachine
  | [] => M
  | Transition :: rest =>
    RegisterMultipleTransitions this (RegisterTransitionSourced this M Transition) rest

/-- `TArray::operator[]`: range checked. -/
def TArrayIndex {α : Type} (a : List α) (i : Nat) : Except Fault α :=
  match a[i]? with
  | some x => .ok x
  | none => .error Fault.IndexOutOfRange

/-- The inner loop of `AutoTransitionRegistration` (SSM_StateMachine.cpp:138-143)
from the counter value `State2` on.  `State2` is a `uint8`: the increment is
modulo 256.  The first argument after `State1` is the fuel: `none` is returned
when it runs out before the loop ends. -/
def AutoInnerLoop (this : Nat) (StateNames : List String)
    (ConditionFunctionNamePrefix ConditionFunctionNameStateConnector : String) (State1 : Nat) :
    Nat → Nat → USSM_StateMachine → Option (Except Fault USSM_StateMachine)
  | 0, _, _ => none
  | fuel + 1, State2, M =>
    -- State2 < StateNames.Num()
    if State2 < StateNames.length then
      match TArrayIndex StateNames State1, TArrayIndex StateNames State2 with
      | .ok Name1, .ok Name2 =>
        let ConditionFunctionName :=
          ConditionFunctionNamePrefix ++ Name1 ++ ConditionFunctionNameStateConnector ++ Name2
        AutoInnerLoop this StateNames ConditionFunctionNamePrefix
          ConditionFunctionNameStateConnector State1 fuel ((State2 + 1) % 256)
          (RegisterTransitionLocal this M State1 State2 ConditionFunctionName)
      | .error e, _ => some (.error e)
      | .ok _, .error e => some (.error e)
    else some (.ok M)

/-- The outer loop of `AutoTransitionRegistration` (SSM_StateMachine.cpp:137)
from the counter value `State1` on; `State1` is a `uint8`. -/
def AutoOuterLoop (this : Nat) (StateNames : List String)
    (ConditionFunctionNamePrefix ConditionFunctionNameStateConnector : String) :
    Nat → Nat → USSM_StateMachine → Option (Except Fault USSM_StateMachine)
  | 0, _, _ => none
  | fuel + 1, State1, M =>
    -- State1 < StateNames.Num()
    if State1 < StateNames.length then
      match AutoInnerLoop this StateNames ConditionFunctionNamePrefix
          ConditionFunctionNameStateConnector State1 fuel 0 M with
      | none => none
      | some (.error e) => some (.error e)
      | some (.ok M1) =>
        AutoOuterLoop this StateNames ConditionFunctionNamePrefix
          ConditionFunctionNameStateConnector fuel ((State1 + 1) % 256) M1
    else some (.ok M)

/-- `USSM_StateMachine::AutoTransitionRegistration` (SSM_StateMachine.cpp:135-144)
with the given fuel; `FName` is represented by the string it is made from. -/
def AutoTransitionRegistration (this : Nat) (M : USSM_StateMachine) (StateNames : List String)
    (ConditionFunctionNamePrefix ConditionFunctionNameStateConnector : String) (fuel : Nat) :
    Option (Except Fault USSM_StateMachine) :=
  AutoOuterLoop this StateNames ConditionFunctionNamePrefix
    ConditionFunctionNameStateConnector fuel 0 M

/-- The objects of the program: the machines and the state objects, by address. -/
structure World where
  /-- The live `USSM_StateMachine` objects. -/
  Machines : TMap Nat USSM_StateMachine := []
  /-- The live `USSM_StateBase` objects. -/
  Objects : ObjectHeap := []
  deriving DecidableEq, Repr

/-- `USSM_StateBase::STATEMACHINE_SetStateMachine` (SSM_StateBase.cpp:11-19),
called on the state object at address `State`. -/
def STATEMACHINE_SetStateMachine (W : World) (State : Nat) (InStateMachine : Nat) :
    Except Fault (World × List Event) :=
  match Deref W.Objects State with
  | .error e => .error e
  | .ok o =>
    -- if (StateMachine) StateMachine->RemoveState(GetStateID());
    match (if o.StateMachine ≠ 0 then
            match TMap.Find W.Machines o.StateMachine with
            | none => .error Fault.NullPointer
            | some Old =>
              .ok { W with Machines :=
                      TMap.Add W.Machines o.StateMachine (RemoveState Old o.GetStateID) }
          else (.ok W : Except Fault World)) with
    | .error e => .error e
    | .ok W1 =>
      -- StateMachine = InStateMachine;
      let W2 := { W1 with Objects :=
                    TMap.Add W1.Objects State { o with StateMachine := InStateMachine } }
      -- STATEMACHINE_OnSetStateMachine();
      .ok (W2, [Event.STATEMACHINE_OnSetStateMachine State])

/-- `USSM_StateMachine::AddNewStateExisting` (SSM_StateMachine.cpp:69-73),
called on the machine at address `this`. -/
def AddNewStateExisting (W : World) (this : Nat) (InStateID : Nat) (InState : Nat) :
    Except Fault (World × List Event) :=
  match TMap.Find W.Machines this with
  | none => .error Fault.NullPointer
  | some M =>
    -- States.Add(InStateID, InState);
    let W1 := { W with Machines :=
                  TMap.Add W.Machines this { M with States := TMap.Add M.States InStateID InState } }
    -- InState->STATEMACHINE_SetStateMachine(this);
    STATEMACHINE_SetStateMachine W1 InState this

/-- An address at which no object lives: one more than every address in use. -/
def FreshAddress (W : World) : Nat :=
  ((W.Machines.map Prod.fst ++ W.Objects.map Prod.fst).foldl max 0) + 1

/-- `USSM_StateMachine::AddNewState` (SSM_StateMachine.cpp:76-80): `NewObject`
makes a zero filled state object at a fresh address.  The class of the state
decides its hooks only and is not represented. -/
def AddNewState (W : World) (this : Nat) (InStateID : Nat) : Except Fault (World × List Event) :=
  let NewState := FreshAddress W
  let W1 := { W with Objects := TMap.Add W.Objects NewState {} }
  AddNewStateExisting W1 this InStateID NewState

/-- A call of the public interface, on the machine at address `this` or on the
state object at address `State`. -/
inductive Call where
  | AddNewStateExisting (this InStateID InState : Nat)
  | AddNewState (this InStateID : Nat)
  | RemoveState (this InStateID : Nat)
  | RegisterTransition (this : Nat) (InStateTransition : FStateTransition)
  | RegisterTransitionLocal (this InOriginState InTargetState : Nat) (Name : String)
  | RegisterMultipleTransitions (this : Nat) (InStateTransitions : List FStateTransition)
  | ForceCallStateTransition (this InNewState : Nat)
  | UpdateStateMachine (this : Nat) (Env : CondEnv) (DeltaTime : Nat)
  | SetStateID (State InStateID : Nat)
  | SetStateLocked (State : Nat) (InLocked : Bool)

/-- A call on the machine at `this` that changes that machine only. -/
def OnMachine (W : World) (this : Nat) (f : USSM_StateMachine → USSM_StateMachine) :
    Except Fault (World × List Event) :=
  match TMap.Find W.Machines this with
  | none => .error Fault.NullPointer
  | some M => .ok ({ W with Machines := TMap.Add W.Machines this (f M) }, [])

/-- A call on the state object at `State` that changes that object only. -/
def OnState (W : World) (State : Nat) (f : USSM_StateBase → USSM_StateBase) :
    Except Fault (World × List Event) :=
  match Deref W.Objects State with
  | .error e => .error e
  | .ok o => .ok ({ W with Objects := TMap.Add W.Objects State (f o) }, [])

/-- One call of the public interface. -/
def RunCall (W : World) : Call → Except Fault (World × List Event)
  | .AddNewStateExisting this InStateID InState => AddNewStateExisting W this InStateID InState
  | .AddNewState this InStateID => AddNewState W this InStateID
  | .RemoveState this InStateID => OnMachine W this (fun M => RemoveState M InStateID)
  | .RegisterTransition this t => OnMachine W this (fun M => RegisterTransition this M t)
  | .RegisterTransitionLocal this o t n =>
    OnMachine W this (fun M => RegisterTransitionLocal this M o t n)
  | .RegisterMultipleTransitions this ts =>
    OnMachine W this (fun M => RegisterMultipleTransitions this M ts)
  | .ForceCallStateTransition this InNewState =>
    OnMachine W this (fun M => ForceCallStateTransition M InNewState)
  | .UpdateStateMachine this Env DeltaTime =>
    match TMap.Find W.Machines this with
    | none => .error Fault.NullPointer
    | some M =>
      match UpdateStateMachine Env W.Objects M DeltaTime with
      | .error e => .error e
      | .ok (M1, ev) => .ok ({ W with Machines := TMap.Add W.Machines this M1 }, ev)
  | .SetStateID State InStateID => OnState W State (fun s => s.SetStateID InStateID)
  | .SetStateLocked State InLocked => OnState W State (fun s => s.SetStateLocked InLocked)

/-- A sequence of calls, each made after the one before it has completed. -/
def RunCalls (W : World) : List Call → Except Fault (World × List Event)
  | [] => .ok (W, [])
  | c :: rest =>
    match RunCall W c with
    | .error e => .error e
    | .ok (W1, ev) =>
      match RunCalls W1 rest with
      | .error e => .error e
      | .ok (W2, ev2) => .ok (W2, ev ++ ev2)

/-- The active state of the machine at `this`, if that machine is live. -/
def ActiveStateOf (W : World) (this : Nat) : Option Nat :=
  (TMap.Find W.Machines this).map GetActiveState

/-! ## The example machine (SSM_CodeExampleStateMachine.h) -/

/-- The conditions of `USSM_CodeExampleStateMachine` (SSM_CodeExampleStateMachine.h:176-184)
on the machine at `this` with the given `TestValue`; the values used are
integers, on which the float comparisons are exact. -/
def CodeExampleEnv (this : Nat) (TestValue : Int) : CondEnv := fun Object FunctionName =>
  if Object = this then
    if FunctionName = "Condition_One_Two" then some (decide (TestValue > 0))
    else if FunctionName = "Condition_One_Three" then some (decide (TestValue < 0))
    else if FunctionName = "Condition_Two_One" then some (decide (TestValue ≤ 0))
    else if FunctionName = "Condition_Three_One" then some (decide (TestValue ≥ 0))
    else none
  else none

/-- The calls of `USSM_CodeExampleStateMachine::OnInitStateMachine_Implementation`
(SSM_CodeExampleStateMachine.h:145-167). -/
def CodeExampleInit (this : Nat) : List Call :=
  [ Call.AddNewState this 1,
    Call.AddNewState this 2,
    Call.AddNewState this 3,
    Call.RegisterMultipleTransitions this
      [ FStateTransition.Make 1 2 "Condition_One_Two" this,
        FStateTransition.Make 1 3 "Condition_One_Three" this,
        FStateTransition.Make 2 1 "Condition_Two_One" this,
        FStateTransition.Make 3 1 "Condition_Three_One" this ],
    Call.ForceCallStateTransition this 1 ]

/-- A world with one freshly constructed machine, at address `1`. -/
def FreshWorld : World := { Machines := [(1, {})], Objects := [] }

/-! ## Vocabulary of the properties -/

/-- An identity is registered: it is a key of `States` and the pointer stored
under it refers to a live state object. -/
def IsRegistered (Objects : ObjectHeap) (M : USSM_StateMachine) (StateID : Nat) : Bool :=
  match TMap.Find M.States StateID with
  | some p => IsValid Objects p
  | none => false

/-- The trace of `ExitState` calls of a commit: one call on the state stored
under `ActiveState` when `ActiveState` is not `0`, none otherwise. -/
def ExitTrace (M : USSM_StateMachine) : List Event :=
  if M.ActiveState ≠ 0 then
    match TMap.Find M.States M.ActiveState with
    | some p => [Event.ExitState p M.ActiveState]
    | none => []
  else []

/-- The event is the execution of a transition condition. -/
def Event.isConditionExecute : Event → Bool
  | .ConditionExecute _ _ _ => true
  | _ => false

/-- The event is an `UpdateState` call. -/
def Event.isUpdateState : Event → Bool
  | .UpdateState _ _ => true
  | _ => false

/-- The event is an `OnStateChanged` broadcast: one per completed `StateTransition`. -/
def Event.isOnStateChanged : Event → Bool
  | .OnStateChanged _ _ => true
  | _ => false

/-- The event is an `ExitState` or an `EnterState` call. -/
def Event.isEnterOrExit : Event → Bool
  | .ExitState _ _ => true
  | .EnterState _ _ => true
  | _ => false

/-- The condition of line 37: the delegate is bound and its execution returns true. -/
def Fires (Env : CondEnv) (t : FStateTransition) : Bool :=
  t.ConditionDelegate.IsBound Env && t.ConditionDelegate.Execute Env

/-- The executions of the conditions of a sequence of transitions scanned in
order to its end: one per bound delegate, none for a delegate that is not bound. -/
def ConditionTrace (Env : CondEnv) : List FStateTransition → List Event
  | [] => []
  | t :: rest =>
    if t.ConditionDelegate.IsBound Env then
      Event.ConditionExecute t.ConditionDelegate.Object t.ConditionDelegate.FunctionName
        (t.ConditionDelegate.Execute Env) :: ConditionTrace Env rest
    else ConditionTrace Env rest

/-- The transition 1 to 2 of the example machine, as it is stored. -/
def LockScenarioTransition : FStateTransition :=
  { TargetState := 2, CondtionFunctionOwner := 1, ConditionFunctionName := "Condition_One_Two",
    ConditionDelegate := { Object := 1, FunctionName := "Condition_One_Two" } }

/-- The machine of the lock scenario: states 1, 2, 3 at the addresses 10, 20,
30, state 1 active, the transition 1 to 2 registered. -/
def LockScenarioMachine : USSM_StateMachine :=
  { States := [(1, 10), (2, 20), (3, 30)], ActiveState := 1,
    TransitionMap := [(1, [LockScenarioTransition])] }

/-- The state objects of the lock scenario; state 1 is locked or not. -/
def LockScenarioObjects (Locked : Bool) : ObjectHeap :=
  [(10, { StateMachine := 1, Locked := Locked }), (20, { StateMachine := 1 }),
   (30, { StateMachine := 1 })]

/-- A tick of the example machine at address 1 with the given `TestValue`. -/
def CodeExampleTick (TestValue : Int) : Call :=
  Call.UpdateStateMachine 1 (CodeExampleEnv 1 TestValue) 0

/-- The active state of the machine at address 1 after a sequence of calls on
the fresh world; `none` when a call faults. -/
def ActiveAfter (calls : List Call) : Option Nat :=
  match RunCalls FreshWorld calls with
  | .ok (W, _) => ActiveStateOf W 1
  | .error _ => none

/-- What `RegisterTransitionSourced` stores for a transition: the target, the
function name, the owner with the machine `this` in place of a null owner, and
the delegate bound to that owner and name; `OriginState` is not copied. -/
def StoredTransition (this : Nat) (t : FStateTransition) : FStateTransition :=
  { OriginState := 0,
    TargetState := t.TargetState,
    ConditionFunctionName := t.ConditionFunctionName,
    CondtionFunctionOwner := if t.CondtionFunctionOwner = 0 then this else t.CondtionFunctionOwner,
    ConditionDelegate :=
      { Object := if t.CondtionFunctionOwner = 0 then this else t.CondtionFunctionOwner,
        FunctionName := t.ConditionFunctionName } }

/-- The sequence of transitions stored under an origin, empty when the origin
is not a key of `TransitionMap`. -/
def TransitionsOf (M : USSM_StateMachine) (OriginState : Nat) : List FStateTransition :=
  (TMap.Find M.TransitionMap OriginState).getD []

/-- The invariant of the active state: it is 0 or a key of `States`. -/
def ActiveStateInvariant (M : USSM_StateMachine) : Prop :=
  M.ActiveState = 0 ∨ TMap.Contains M.States M.ActiveState = true

/-- Every live machine satisfies the invariant of the active state. -/
def WorldInvariant (W : World) : Prop :=
  ∀ m M, TMap.Find W.Machines m = some M → ActiveStateInvariant M

/-- The machine of the dangling transition scenario: the lock scenario machine
after `RemoveState 2` and `RemoveState 3`; the transition 1 to 2 is still
registered. -/
def DanglingScenarioMachine : USSM_StateMachine :=
  RemoveState (RemoveState LockScenarioMachine 2) 3

/-- The batch registration in the words of the specification: repeated single
calls of `RegisterTransition`, in list order. -/
def RegisterEachInOrder (this : Nat) (M : USSM_StateMachine) (L : List FStateTransition) :
    USSM_StateMachine :=
  L.foldl (fun acc t => RegisterTransition this acc t) M

/-- A world with two freshly constructed machines, at the addresses 1 and 2. -/
def TwoMachineWorld : World := { Machines := [(1, {}), (2, {})], Objects := [] }

/-- The transition that auto registration stores for the ordered pair of the
indices `i` and `j`: target `j`, the condition name made of the naming
convention and the two names, the machine itself as owner. -/
def AutoTransition (this : Nat) (StateNames : List String)
    (ConditionFunctionNamePrefix ConditionFunctionNameStateConnector : String) (i j : Nat) :
    FStateTransition :=
  StoredTransition this
    (FStateTransition.Make i j
      (ConditionFunctionNamePrefix ++ StateNames.getD i "" ++
        ConditionFunctionNameStateConnector ++ StateNames.getD j "") this)

/-- The well-formedness of a machine before a tick: `States` has no key 0;
`BufferedNewState` is 0 or a key of `States`; `ActiveState` is a key of
`States`, or it is 0 and `BufferedNewState` is a key of `States`; the target of
every transition stored under a key of `TransitionMap` is a key of `States`. -/
def WellFormed (M : USSM_StateMachine) : Prop :=
  TMap.Contains M.States 0 = false
    ∧ (M.BufferedNewState = 0 ∨ TMap.Contains M.States M.BufferedNewState = true)
    ∧ (TMap.Contains M.States M.ActiveState = true
        ∨ (M.ActiveState = 0 ∧ TMap.Contains M.States M.BufferedNewState = true))
    ∧ (∀ k ts t, TMap.Find M.TransitionMap k = some ts → t ∈ ts →
        TMap.Contains M.States t.TargetState = true)

/-- Every pointer stored in `States` refers to a live state object. -/
def StatesLive (Objects : ObjectHeap) (M : USSM_StateMachine) : Prop :=
  ∀ k p, TMap.Find M.States k = some p → IsValid Objects p = true

/-- The world of the re-adding scenario: a freshly constructed machine at
address 1 and a new state object at address 10. -/
def ReAddWorld : World := { Machines := [(1, {})], Objects := [(10, {})] }

/-- The calls of the re-adding scenario: the state is added under the identity
5, the host sets its identity to 5, and the state is added under 5 again. -/
def ReAddCalls : List Call :=
  [Call.AddNewStateExisting 1 5 10, Call.SetStateID 10 5, Call.AddNewStateExisting 1 5 10]

/-- A machine whose only state, stored under 1 and active, is the pointer 10;
with a heap in which no object lives at 10 (the state object was destroyed by
the host), the pointer is not valid. -/
def DeadPointerMachine : USSM_StateMachine :=
  { States := [(1, 10)], ActiveState := 1 }

/-! ## Lemmas on the embedding -/

theorem StateAt_eq_ok_iff (Objects : ObjectHeap) (States : TMap Nat Nat) (k p : Nat) :
    StateAt Objects States k = .ok p ↔
      TMap.Find States k = some p ∧ IsValid Objects p = true := by
  unfold StateAt TMap.Index Deref IsValid TMap.Contains
  cases h : TMap.Find States k with
  | none => simp
  | some q =>
    by_cases hq : q = 0
    · subst hq; simp; intro h0; subst h0; simp
    · cases ho : TMap.Find Objects q with
      | none => simp [hq, ho]; intro h1; subst h1; simp [ho]
      | some o =>
        simp [hq, ho]
        intro h1; subst h1; simp [hq, ho]

theorem IsRegistered_iff (Objects : ObjectHeap) (M : USSM_StateMachine) (k : Nat) :
    IsRegistered Objects M k = true ↔ ∃ p, StateAt Objects M.States k = .ok p := by
  unfold IsRegistered
  constructor
  · intro h
    cases hf : TMap.Find M.States k with
    | none => simp [hf] at h
    | some p =>
      simp [hf] at h
      exact ⟨p, (StateAt_eq_ok_iff _ _ _ _).2 ⟨hf, h⟩⟩
  · rintro ⟨p, hp⟩
    obtain ⟨hf, hv⟩ := (StateAt_eq_ok_iff _ _ _ _).1 hp
    simp [hf, hv]

theorem StateTransition_ok (Objects : ObjectHeap) (M : USSM_StateMachine) (n : Nat)
    (hactive : M.ActiveState = 0 ∨ IsRegistered Objects M M.ActiveState = true)
    (hn : IsRegistered Objects M n = true) :
    ∃ q, StateAt Objects M.States n = .ok q ∧
      StateTransition Objects M n =
        .ok ({ M with ActiveState := n },
             ExitTrace M ++ [Event.EnterState q n, Event.OnStateChanged M.ActiveState n]) := by
  obtain ⟨q, hq⟩ := (IsRegistered_iff _ _ _).1 hn
  refine ⟨q, hq, ?_⟩
  unfold StateTransition ExitTrace
  by_cases h0 : M.ActiveState = 0
  · simp [h0, hq]
  · have hreg : IsRegistered Objects M M.ActiveState = true := by
      cases hactive with
      | inl h => exact absurd h h0
      | inr h => exact h
    obtain ⟨p, hp⟩ := (IsRegistered_iff _ _ _).1 hreg
    have hf := ((StateAt_eq_ok_iff _ _ _ _).1 hp).1
    simp [h0, hp, hq, hf]

theorem ExitTrace_no_condition (M : USSM_StateMachine) :
    ∀ e ∈ ExitTrace M, e.isConditionExecute = false ∧ e.isUpdateState = false
      ∧ e.isOnStateChanged = false := by
  intro e he
  unfold ExitTrace at he
  split at he
  · split at he
    · simp at he; subst he; exact ⟨rfl, rfl, rfl⟩
    · simp at he
  · simp at he

/-- The forced branch of the tick, when the active state is 0 or registered
and the buffered state is registered. -/
theorem UpdateStateMachine_forced (Env : CondEnv) (Objects : ObjectHeap)
    (M : USSM_StateMachine) (DeltaTime : Nat) (hb : M.BufferedNewState ≠ 0)
    (hactive : M.ActiveState = 0 ∨ IsRegistered Objects M M.ActiveState = true)
    (hX : IsRegistered Objects M M.BufferedNewState = true) :
    ∃ q, StateAt Objects M.States M.BufferedNewState = .ok q ∧
      UpdateStateMachine Env Objects M DeltaTime =
        .ok ({ M with ActiveState := M.BufferedNewState, BufferedNewState := 0 },
             ExitTrace M ++ [Event.EnterState q M.BufferedNewState,
               Event.OnStateChanged M.ActiveState M.BufferedNewState,
               Event.TransitionHappened true, Event.OnUpdateStateMachine DeltaTime]) := by
  obtain ⟨q, hq, hst⟩ := StateTransition_ok Objects M M.BufferedNewState hactive hX
  refine ⟨q, hq, ?_⟩
  unfold UpdateStateMachine CommitBranches
  simp [hb, hst]

/-- Every completed `StateTransition` has the same shape. -/
theorem StateTransition_inv (Objects : ObjectHeap) (M M' : USSM_StateMachine) (n : Nat)
    (ev : List Event) (h : StateTransition Objects M n = .ok (M', ev)) :
    M' = { M with ActiveState := n } ∧
      ∃ q, StateAt Objects M.States n = .ok q ∧
        ev = ExitTrace M ++ [Event.EnterState q n, Event.OnStateChanged M.ActiveState n] := by
  unfold StateTransition at h
  by_cases h0 : M.ActiveState = 0
  · simp only [h0, ne_eq, not_true_eq_false, if_false] at h
    cases hq : StateAt Objects M.States n with
    | error e => simp [hq] at h
    | ok q =>
      simp [hq] at h
      refine ⟨h.1.symm, q, rfl, ?_⟩
      simp [ExitTrace, h0, ← h.2]
  · simp only [h0, ne_eq, not_false_eq_true, if_true] at h
    cases hp : StateAt Objects M.States M.ActiveState with
    | error e => simp [hp] at h
    | ok p =>
      cases hq : StateAt Objects M.States n with
      | error e => simp [hp, hq] at h
      | ok q =>
        simp [hp, hq] at h
        have hf := ((StateAt_eq_ok_iff _ _ _ _).1 hp).1
        refine ⟨h.1.symm, q, rfl, ?_⟩
        simp [ExitTrace, h0, hf, ← h.2]

theorem ConditionTrace_filter (Env : CondEnv) (l : List FStateTransition) :
    (ConditionTrace Env l).filter Event.isConditionExecute = ConditionTrace Env l := by
  induction l with
  | nil => rfl
  | cons t rest ih =>
    simp only [ConditionTrace]
    split
    · simp [List.filter_cons, Event.isConditionExecute, ih]
    · exact ih

theorem ExitTrace_filter (M : USSM_StateMachine) :
    (ExitTrace M).filter Event.isConditionExecute = [] := by
  unfold ExitTrace
  split
  · split <;> simp [List.filter_cons, Event.isConditionExecute]
  · simp

/-- A scan in which no condition fires runs to the end and commits nothing. -/
theorem ScanTransitions_none (Env : CondEnv) (Objects : ObjectHeap) (M : USSM_StateMachine)
    (ts : List FStateTransition) (hnone : ∀ u ∈ ts, Fires Env u = false) :
    ScanTransitions Env Objects M ts = .ok (M, ConditionTrace Env ts, false) := by
  induction ts with
  | nil => rfl
  | cons t rest ih =>
    have ht : Fires Env t = false := hnone t (List.mem_cons_self _ _)
    have hrest := ih (fun u hu => hnone u (List.mem_cons_of_mem _ hu))
    unfold ScanTransitions ConditionTrace
    unfold Fires at ht
    by_cases hb : t.ConditionDelegate.IsBound Env = true
    · have hx : t.ConditionDelegate.Execute Env = false := by simpa [hb] using ht
      simp [hb, hx, hrest]
    · simp [hb, hrest]

/-- A scan stops at the first transition whose condition fires and commits to
its target. -/
theorem ScanTransitions_first (Env : CondEnv) (Objects : ObjectHeap) (M : USSM_StateMachine)
    (pre : List FStateTransition) (t : FStateTransition) (post : List FStateTransition)
    (hpre : ∀ u ∈ pre, Fires Env u = false) (ht : Fires Env t = true)
    (hactive : M.ActiveState = 0 ∨ IsRegistered Objects M M.ActiveState = true)
    (htarget : IsRegistered Objects M t.TargetState = true) :
    ∃ q, StateAt Objects M.States t.TargetState = .ok q ∧
      ScanTransitions Env Objects M (pre ++ t :: post) =
        .ok ({ M with ActiveState := t.TargetState },
             ConditionTrace Env (pre ++ [t]) ++ ExitTrace M ++
               [Event.EnterState q t.TargetState,
                Event.OnStateChanged M.ActiveState t.TargetState,
                Event.TransitionHappened false], true) := by
  obtain ⟨q, hq, hst⟩ := StateTransition_ok Objects M t.TargetState hactive htarget
  refine ⟨q, hq, ?_⟩
  induction pre with
  | nil =>
    unfold Fires at ht
    have hb : t.ConditionDelegate.IsBound Env = true := by
      cases h : t.ConditionDelegate.IsBound Env <;> simp [h] at ht ⊢
    have hx : t.ConditionDelegate.Execute Env = true := by simpa [hb] using ht
    simp [ScanTransitions, ConditionTrace, hb, hx, hst]
  | cons u rest ih =>
    have hu : Fires Env u = false := hpre u (List.mem_cons_self _ _)
    have hrest := ih (fun v hv => hpre v (List.mem_cons_of_mem _ hv))
    unfold Fires at hu
    simp only [List.cons_append]
    unfold ScanTransitions ConditionTrace
    by_cases hb : u.ConditionDelegate.IsBound Env = true
    · have hx : u.ConditionDelegate.Execute Env = false := by simpa [hb] using hu
      simp [hb, hx, hrest]
    · simp [hb, hrest]

theorem List_split_at (ts : List FStateTransition) (i : Nat) (h : i < ts.length) :
    ts = ts.take i ++ ts[i] :: ts.drop (i + 1) ∧ ts.take (i + 1) = ts.take i ++ [ts[i]] := by
  induction ts generalizing i with
  | nil => simp at h
  | cons t rest ih =>
    cases i with
    | zero => simp
    | succ j =>
      have hj : j < rest.length := by simpa using h
      obtain ⟨h1, h2⟩ := ih j hj
      constructor
      · simp only [List.take_succ_cons, List.getElem_cons_succ, List.drop_succ_cons,
          List.cons_append]
        exact congrArg _ h1
      · simp only [List.take_succ_cons, List.getElem_cons_succ, List.cons_append]
        exact congrArg _ h2

/-- The tick of a machine with no pending forced state and a registered,
unlocked active state is the scan of the transitions of the active state,
followed by the `UpdateState` call when the scan committed nothing. -/
theorem UpdateStateMachine_scan (Env : CondEnv) (Objects : ObjectHeap) (M : USSM_StateMachine)
    (DeltaTime p : Nat) (o : USSM_StateBase) (ts : List FStateTransition)
    (hbuf : M.BufferedNewState = 0) (hreg : StateAt Objects M.States M.ActiveState = .ok p)
    (hobj : Deref Objects p = .ok o) (hunl : o.Locked = false)
    (hts : TMap.Find M.TransitionMap M.ActiveState = some ts) :
    UpdateStateMachine Env Objects M DeltaTime =
      match ScanTransitions Env Objects M ts with
      | .error e => .error e
      | .ok (M1, ev, true) => .ok (M1, ev ++ [Event.OnUpdateStateMachine DeltaTime])
      | .ok (M1, ev, false) =>
        match StateAt Objects M1.States M1.ActiveState with
        | .error e => .error e
        | .ok q => .ok (M1, ev ++ [Event.UpdateState q DeltaTime,
                                   Event.OnUpdateStateMachine DeltaTime]) := by
  obtain ⟨hf, hv⟩ := (StateAt_eq_ok_iff _ _ _ _).1 hreg
  unfold UpdateStateMachine CommitBranches ConditionalGuard
  simp only [hbuf, ne_eq, not_true_eq_false, if_false, TMap.Contains, hts, Option.isSome_some,
    if_true, TMap.Index, hf, hv, hobj, USSM_StateBase.IsLocked, hunl, Bool.not_false]
  cases hsc : ScanTransitions Env Objects M ts with
  | error e => simp
  | ok r =>
    obtain ⟨M1, ev, happened⟩ := r
    cases happened with
    | true => simp
    | false =>
      simp only [Bool.not_false, if_true]
      cases hq : StateAt Objects M1.States M1.ActiveState with
      | error e => simp
      | ok q => simp

theorem TMap_Find_Add {V : Type} (m : TMap Nat V) (k k' : Nat) (v : V) :
    TMap.Find (TMap.Add m k v) k' = if k = k' then some v else TMap.Find m k' := by
  induction m with
  | nil => simp [TMap.Add, TMap.Find]
  | cons e rest ih =>
    obtain ⟨a, b⟩ := e
    unfold TMap.Add
    by_cases hak : a = k
    · subst hak
      by_cases hk : a = k' <;> simp [TMap.Find, hk]
    · by_cases hk : k = k'
      · subst hk
        simp [hak, TMap.Find, ih]
      · by_cases hak' : a = k'
        · subst hak'
          simp [hak, TMap.Find, hk]
        · simp [hak, TMap.Find, ih, hk, hak']

theorem TMap_Contains_Add {V : Type} (m : TMap Nat V) (k k' : Nat) (v : V) :
    TMap.Contains (TMap.Add m k v) k' = (decide (k = k') || TMap.Contains m k') := by
  unfold TMap.Contains
  rw [TMap_Find_Add]
  by_cases hk : k = k' <;> simp [hk]

/-- Storing a new value for a live object keeps every live object valid. -/
theorem IsValid_Add (Objects : ObjectHeap) (p q : Nat) (o : USSM_StateBase)
    (hq : IsValid Objects q = true) : IsValid (TMap.Add Objects p o) q = true := by
  unfold IsValid at hq ⊢
  rw [TMap_Contains_Add]
  simp at hq ⊢
  exact ⟨hq.1, Or.inr hq.2⟩

theorem IsRegistered_Add (Objects : ObjectHeap) (M : USSM_StateMachine) (p k : Nat)
    (o : USSM_StateBase) (hk : IsRegistered Objects M k = true) :
    IsRegistered (TMap.Add Objects p o) M k = true := by
  unfold IsRegistered at hk ⊢
  cases hf : TMap.Find M.States k with
  | none => simp [hf] at hk
  | some q =>
    simp only [hf] at hk ⊢
    exact IsValid_Add Objects p q o hk

theorem TMap_Find_Remove {V : Type} (m : TMap Nat V) (k k' : Nat) (h : k ≠ k') :
    TMap.Find (TMap.Remove m k) k' = TMap.Find m k' := by
  induction m with
  | nil => rfl
  | cons e rest ih =>
    obtain ⟨a, b⟩ := e
    unfold TMap.Remove at ih ⊢
    by_cases hak : a = k
    · subst hak
      rw [List.filter_cons]
      simp only [ne_eq, not_true_eq_false, decide_False, Bool.false_eq_true, if_false, TMap.Find,
        h]
      exact ih
    · rw [List.filter_cons]
      simp only [ne_eq, hak, not_false_eq_true, decide_True, if_true, TMap.Find]
      rw [ih]

/-- What `RegisterTransitionSourced` does to the table: it appends the stored
form of the transition to the sequence of its origin. -/
theorem RegisterTransitionSourced_eq (this : Nat) (M : USSM_StateMachine) (t : FStateTransition) :
    RegisterTransitionSourced this M t =
      { M with TransitionMap := TMap.Add M.TransitionMap t.OriginState
                  (TransitionsOf M t.OriginState ++ [StoredTransition this t]) } := by
  unfold RegisterTransitionSourced TransitionsOf StoredTransition
    FTransitionConditionDelegate.BindUFunction
  by_cases h0 : t.CondtionFunctionOwner = 0
  · cases hf : TMap.Find M.TransitionMap t.OriginState <;> simp [h0, hf]
  · cases hf : TMap.Find M.TransitionMap t.OriginState <;> simp [h0, hf]

theorem RegisterMultipleTransitions_frame (this : Nat) (ts : List FStateTransition) :
    ∀ M : USSM_StateMachine,
      (RegisterMultipleTransitions this M ts).States = M.States
        ∧ (RegisterMultipleTransitions this M ts).ActiveState = M.ActiveState
        ∧ (RegisterMultipleTransitions this M ts).BufferedNewState = M.BufferedNewState := by
  induction ts with
  | nil => intro M; exact ⟨rfl, rfl, rfl⟩
  | cons t rest ih =>
    intro M
    unfold RegisterMultipleTransitions
    obtain ⟨h1, h2, h3⟩ := ih (RegisterTransitionSourced this M t)
    rw [h1, h2, h3, RegisterTransitionSourced_eq]
    exact ⟨rfl, rfl, rfl⟩

theorem RemoveState_invariant (M : USSM_StateMachine) (InStateID : Nat)
    (h : ActiveStateInvariant M) : ActiveStateInvariant (RemoveState M InStateID) := by
  unfold RemoveState ActiveStateInvariant at *
  by_cases ha : InStateID = M.ActiveState
  · simp only [ha, if_true]
    split <;> exact Or.inl rfl
  · simp only [ha, if_false]
    split
    · cases h with
      | inl h0 => exact Or.inl h0
      | inr hc =>
        right
        unfold TMap.Contains at hc ⊢
        simp only
        rw [TMap_Find_Remove _ _ _ ha]
        exact hc
    · exact h

/-- A completed scan keeps `States` and leaves the active state as it was or
at a key of `States`. -/
theorem ScanTransitions_active (Env : CondEnv) (Objects : ObjectHeap) (M : USSM_StateMachine)
    (ts : List FStateTransition) :
    ∀ (M' : USSM_StateMachine) (ev : List Event) (happened : Bool),
      ScanTransitions Env Objects M ts = .ok (M', ev, happened) →
      M'.States = M.States ∧
        (M'.ActiveState = M.ActiveState ∨ TMap.Contains M.States M'.ActiveState = true) := by
  induction ts with
  | nil =>
    intro M' ev happened h
    simp [ScanTransitions] at h
    obtain ⟨h1, _, _⟩ := h
    subst h1
    exact ⟨rfl, Or.inl rfl⟩
  | cons t rest ih =>
    intro M' ev happened h
    unfold ScanTransitions at h
    by_cases hb : t.ConditionDelegate.IsBound Env = true
    · by_cases hx : t.ConditionDelegate.Execute Env = true
      · simp only [hb, hx, if_true] at h
        cases hst : StateTransition Objects M t.TargetState with
        | error e => simp [hst] at h
        | ok r =>
          obtain ⟨M1, ev1⟩ := r
          simp [hst] at h
          obtain ⟨h1, _, _⟩ := h
          obtain ⟨hM1, q, hq, _⟩ := StateTransition_inv Objects M M1 _ ev1 hst
          subst h1; subst hM1
          have hf := ((StateAt_eq_ok_iff _ _ _ _).1 hq).1
          exact ⟨rfl, Or.inr (by simp [TMap.Contains, hf])⟩
      · simp only [hb, hx, if_true] at h
        cases hsc : ScanTransitions Env Objects M rest with
        | error e => simp [hsc] at h
        | ok r =>
          obtain ⟨M1, ev1, hp1⟩ := r
          simp [hsc] at h
          obtain ⟨h1, _, _⟩ := h
          subst h1
          exact ih M1 ev1 hp1 hsc
    · simp only [hb] at h
      exact ih M' ev happened h

/-- The committing branches, when they complete, keep `States` and leave the
active state as it was or at a key of `States`. -/
theorem CommitBranches_active (Env : CondEnv) (Objects : ObjectHeap) (M : USSM_StateMachine) :
    ∀ (M1 : USSM_StateMachine) (ev1 : List Event) (happened : Bool),
      CommitBranches Env Objects M = .ok (M1, ev1, happened) →
      M1.States = M.States ∧
        (M1.ActiveState = M.ActiveState ∨ TMap.Contains M.States M1.ActiveState = true) := by
  intro M1 ev1 happened hut
  unfold CommitBranches at hut
  by_cases hb : M.BufferedNewState = 0
  · simp only [hb, ne_eq, not_true_eq_false, if_false] at hut
    cases hg : ConditionalGuard Objects M with
    | error e => simp [hg] at hut
    | ok g =>
      cases g with
      | false =>
        simp [hg] at hut
        obtain ⟨h1, _, _⟩ := hut
        subst h1
        exact ⟨rfl, Or.inl rfl⟩
      | true =>
        simp only [hg] at hut
        cases hi : TMap.Index M.States M.ActiveState with
        | error e => simp [hi] at hut
        | ok p =>
          simp only [hi] at hut
          cases hd : Deref Objects p with
          | error e => simp [hd] at hut
          | ok o =>
            simp only [hd] at hut
            by_cases hl : o.IsLocked = true
            · simp [hl] at hut
              obtain ⟨h1, _, _⟩ := hut
              subst h1
              exact ⟨rfl, Or.inl rfl⟩
            · simp only [hl] at hut
              cases ht : TMap.Index M.TransitionMap M.ActiveState with
              | error e => simp [ht] at hut
              | ok ts =>
                simp [ht] at hut
                exact ScanTransitions_active Env Objects M ts M1 ev1 happened hut
  · simp only [hb, ne_eq, not_false_eq_true, if_true] at hut
    cases hst : StateTransition Objects M M.BufferedNewState with
    | error e => simp [hst] at hut
    | ok r =>
      obtain ⟨M2, ev2⟩ := r
      simp [hst] at hut
      obtain ⟨h1, _, _⟩ := hut
      obtain ⟨hM2, q, hq, _⟩ := StateTransition_inv Objects M M2 _ ev2 hst
      subst h1; subst hM2
      have hf := ((StateAt_eq_ok_iff _ _ _ _).1 hq).1
      exact ⟨rfl, Or.inr (by simp [TMap.Contains, hf])⟩

/-- A completed tick keeps `States` and leaves the active state as it was or at
a key of `States`. -/
theorem UpdateStateMachine_active (Env : CondEnv) (Objects : ObjectHeap)
    (M M' : USSM_StateMachine) (DeltaTime : Nat) (ev : List Event)
    (h : UpdateStateMachine Env Objects M DeltaTime = .ok (M', ev)) :
    M'.States = M.States ∧
      (M'.ActiveState = M.ActiveState ∨ TMap.Contains M.States M'.ActiveState = true) := by
  unfold UpdateStateMachine at h
  cases hut : CommitBranches Env Objects M with
  | error e => simp [hut] at h
  | ok r =>
    obtain ⟨M1, ev1, happened⟩ := r
    simp only [hut] at h
    have hk := CommitBranches_active Env Objects M M1 ev1 happened hut
    split at h
    · cases h
    · cases h
      exact hk

theorem UpdateStateMachine_invariant (Env : CondEnv) (Objects : ObjectHeap)
    (M M' : USSM_StateMachine) (DeltaTime : Nat) (ev : List Event)
    (hinv : ActiveStateInvariant M)
    (h : UpdateStateMachine Env Objects M DeltaTime = .ok (M', ev)) :
    ActiveStateInvariant M' := by
  obtain ⟨hs, ha⟩ := UpdateStateMachine_active Env Objects M M' DeltaTime ev h
  unfold ActiveStateInvariant at *
  rw [hs]
  cases ha with
  | inl ha => rw [ha]; exact hinv
  | inr ha => exact Or.inr ha

/-- Replacing a machine by one that satisfies the invariant keeps the invariant
of the world. -/
theorem WorldInvariant_Add (W : World) (m : Nat) (M' : USSM_StateMachine) (Objects : ObjectHeap)
    (hW : WorldInvariant W) (hM : ActiveStateInvariant M') :
    WorldInvariant { Machines := TMap.Add W.Machines m M', Objects := Objects } := by
  intro k K hk
  simp only at hk
  rw [TMap_Find_Add] at hk
  by_cases hmk : m = k
  · simp [hmk] at hk
    subst hk
    exact hM
  · simp [hmk] at hk
    exact hW k K hk

theorem WorldInvariant_Objects (W : World) (Objects : ObjectHeap) (hW : WorldInvariant W) :
    WorldInvariant { W with Objects := Objects } := hW

theorem OnMachine_invariant (W W' : World) (this : Nat) (f : USSM_StateMachine → USSM_StateMachine)
    (ev : List Event) (hf : ∀ M, ActiveStateInvariant M → ActiveStateInvariant (f M))
    (hW : WorldInvariant W) (h : OnMachine W this f = .ok (W', ev)) : WorldInvariant W' := by
  unfold OnMachine at h
  cases hm : TMap.Find W.Machines this with
  | none => simp [hm] at h
  | some M =>
    simp [hm] at h
    obtain ⟨h1, _⟩ := h
    subst h1
    exact WorldInvariant_Add W this (f M) W.Objects hW (hf M (hW this M hm))

theorem STATEMACHINE_SetStateMachine_invariant (W W' : World) (State InStateMachine : Nat)
    (ev : List Event) (hW : WorldInvariant W)
    (h : STATEMACHINE_SetStateMachine W State InStateMachine = .ok (W', ev)) :
    WorldInvariant W' := by
  unfold STATEMACHINE_SetStateMachine at h
  cases hd : Deref W.Objects State with
  | error e => simp [hd] at h
  | ok o =>
    simp only [hd] at h
    by_cases ho : o.StateMachine = 0
    · simp [ho] at h
      obtain ⟨h1, _⟩ := h
      subst h1
      exact hW
    · simp only [ho, ne_eq, not_false_eq_true, if_true] at h
      cases hm : TMap.Find W.Machines o.StateMachine with
      | none => simp [hm] at h
      | some Old =>
        simp [hm] at h
        obtain ⟨h1, _⟩ := h
        subst h1
        exact WorldInvariant_Add W o.StateMachine _ _ hW
          (RemoveState_invariant Old _ (hW _ Old hm))

theorem AddNewStateExisting_invariant (W W' : World) (this InStateID InState : Nat)
    (ev : List Event) (hW : WorldInvariant W)
    (h : AddNewStateExisting W this InStateID InState = .ok (W', ev)) : WorldInvariant W' := by
  unfold AddNewStateExisting at h
  cases hm : TMap.Find W.Machines this with
  | none => simp [hm] at h
  | some M =>
    simp only [hm] at h
    refine STATEMACHINE_SetStateMachine_invariant _ W' InState this ev ?_ h
    refine WorldInvariant_Add W this _ W.Objects hW ?_
    have hM := hW this M hm
    unfold ActiveStateInvariant at hM ⊢
    cases hM with
    | inl h0 => exact Or.inl h0
    | inr hc =>
      right
      simp only
      rw [TMap_Contains_Add, hc]
      simp

/-- Every call of the public interface that completes keeps the invariant. -/
theorem RunCall_invariant (W W' : World) (c : Call) (ev : List Event) (hW : WorldInvariant W)
    (h : RunCall W c = .ok (W', ev)) : WorldInvariant W' := by
  cases c with
  | AddNewStateExisting this InStateID InState =>
    exact AddNewStateExisting_invariant W W' this InStateID InState ev hW h
  | AddNewState this InStateID =>
    simp only [RunCall, AddNewState] at h
    exact AddNewStateExisting_invariant _ W' this InStateID _ ev
      (WorldInvariant_Objects W _ hW) h
  | RemoveState this InStateID =>
    exact OnMachine_invariant W W' this _ ev
      (fun M hM => RemoveState_invariant M InStateID hM) hW h
  | RegisterTransition this t =>
    refine OnMachine_invariant W W' this _ ev (fun M hM => ?_) hW h
    unfold RegisterTransition
    rw [RegisterTransitionSourced_eq]
    exact hM
  | RegisterTransitionLocal this o t n =>
    refine OnMachine_invariant W W' this _ ev (fun M hM => ?_) hW h
    unfold RegisterTransitionLocal
    rw [RegisterTransitionSourced_eq]
    exact hM
  | RegisterMultipleTransitions this ts =>
    refine OnMachine_invariant W W' this _ ev (fun M hM => ?_) hW h
    obtain ⟨h1, h2, _⟩ := RegisterMultipleTransitions_frame this ts M
    unfold ActiveStateInvariant at hM ⊢
    rw [h1, h2]
    exact hM
  | ForceCallStateTransition this InNewState =>
    exact OnMachine_invariant W W' this (fun M => ForceCallStateTransition M InNewState) ev
      (fun M hM => hM) hW h
  | UpdateStateMachine this Env DeltaTime =>
    simp only [RunCall] at h
    cases hm : TMap.Find W.Machines this with
    | none => simp [hm] at h
    | some M =>
      simp only [hm] at h
      cases hu : UpdateStateMachine Env W.Objects M DeltaTime with
      | error e => simp [hu] at h
      | ok r =>
        obtain ⟨M1, ev1⟩ := r
        simp [hu] at h
        obtain ⟨h1, _⟩ := h
        subst h1
        exact WorldInvariant_Add W this M1 W.Objects hW
          (UpdateStateMachine_invariant Env W.Objects M M1 DeltaTime ev1 (hW this M hm) hu)
  | SetStateID State InStateID =>
    simp only [RunCall, OnState] at h
    cases hd : Deref W.Objects State with
    | error e => simp [hd] at h
    | ok o =>
      simp [hd] at h
      obtain ⟨h1, _⟩ := h
      subst h1
      exact hW
  | SetStateLocked State InLocked =>
    simp only [RunCall, OnState] at h
    cases hd : Deref W.Objects State with
    | error e => simp [hd] at h
    | ok o =>
      simp [hd] at h
      obtain ⟨h1, _⟩ := h
      subst h1
      exact hW

theorem RunCalls_invariant (calls : List Call) :
    ∀ (W W' : World) (ev : List Event), WorldInvariant W →
      RunCalls W calls = .ok (W', ev) → WorldInvariant W' := by
  induction calls with
  | nil =>
    intro W W' ev hW h
    simp [RunCalls] at h
    obtain ⟨h1, _⟩ := h
    subst h1
    exact hW
  | cons c rest ih =>
    intro W W' ev hW h
    unfold RunCalls at h
    cases hc : RunCall W c with
    | error e => simp [hc] at h
    | ok r =>
      obtain ⟨W1, ev1⟩ := r
      simp only [hc] at h
      cases hr : RunCalls W1 rest with
      | error e => simp [hr] at h
      | ok r2 =>
        obtain ⟨W2, ev2⟩ := r2
        simp [hr] at h
        obtain ⟨h1, _⟩ := h
        subst h1
        exact ih W1 W2 ev2 (RunCall_invariant W W1 c ev1 hW hc) hr

theorem TMap_Find_Remove_self {V : Type} (m : TMap Nat V) (k : Nat) :
    TMap.Find (TMap.Remove m k) k = none := by
  induction m with
  | nil => rfl
  | cons e rest ih =>
    obtain ⟨a, b⟩ := e
    unfold TMap.Remove at ih ⊢
    rw [List.filter_cons]
    by_cases hak : a = k
    · simp only [ne_eq, hak, not_true_eq_false, decide_False, Bool.false_eq_true, if_false]
      exact ih
    · simp only [ne_eq, hak, not_false_eq_true, decide_True, if_true, TMap.Find, if_false]
      exact ih

/-- `RemoveState` of an identity that is not a key of `States` changes nothing
on a machine that satisfies the invariant of the active state. -/
theorem RemoveState_absent (M : USSM_StateMachine) (InStateID : Nat)
    (hinv : ActiveStateInvariant M) (hid : TMap.Contains M.States InStateID = false) :
    RemoveState M InStateID = M := by
  unfold RemoveState
  by_cases ha : InStateID = M.ActiveState
  · have h0 : M.ActiveState = 0 := by
      cases hinv with
      | inl h => exact h
      | inr h => rw [← ha, hid] at h; cases h
    simp only [ha, if_true]
    rw [← ha, hid]
    simp only [Bool.false_eq_true, if_false]
    cases M
    simp only at h0
    subst h0
    rfl
  · simp [ha, hid]

/-- A commit to an identity that is not a key of `States` faults at the lookup
`States[ActiveState]` of line 63. -/
theorem StateTransition_missing_target (Objects : ObjectHeap) (M : USSM_StateMachine) (n : Nat)
    (hactive : M.ActiveState = 0 ∨ IsRegistered Objects M M.ActiveState = true)
    (hmiss : TMap.Contains M.States n = false) :
    StateTransition Objects M n = .error Fault.MissingKey := by
  have hfn : TMap.Find M.States n = none := by
    unfold TMap.Contains at hmiss
    cases h : TMap.Find M.States n with
    | none => rfl
    | some q => simp [h] at hmiss
  have hat : StateAt Objects M.States n = .error Fault.MissingKey := by
    simp [StateAt, TMap.Index, hfn]
  unfold StateTransition
  by_cases h0 : M.ActiveState = 0
  · simp [h0, hat]
  · have hreg : IsRegistered Objects M M.ActiveState = true := by
      cases hactive with
      | inl h => exact absurd h h0
      | inr h => exact h
    obtain ⟨p, hp⟩ := (IsRegistered_iff _ _ _).1 hreg
    simp [h0, hp, hat]

/-- A scan whose first firing transition has a target that is not a key of
`States` faults. -/
theorem ScanTransitions_first_missing (Env : CondEnv) (Objects : ObjectHeap)
    (M : USSM_StateMachine) (pre : List FStateTransition) (t : FStateTransition)
    (post : List FStateTransition)
    (hpre : ∀ u ∈ pre, Fires Env u = false) (ht : Fires Env t = true)
    (hactive : M.ActiveState = 0 ∨ IsRegistered Objects M M.ActiveState = true)
    (hmiss : TMap.Contains M.States t.TargetState = false) :
    ScanTransitions Env Objects M (pre ++ t :: post) = .error Fault.MissingKey := by
  have hst := StateTransition_missing_target Objects M t.TargetState hactive hmiss
  induction pre with
  | nil =>
    unfold Fires at ht
    have hb : t.ConditionDelegate.IsBound Env = true := by
      cases h : t.ConditionDelegate.IsBound Env <;> simp [h] at ht ⊢
    have hx : t.ConditionDelegate.Execute Env = true := by simpa [hb] using ht
    simp [ScanTransitions, hb, hx, hst]
  | cons u rest ih =>
    have hu : Fires Env u = false := hpre u (List.mem_cons_self _ _)
    have hrest := ih (fun v hv => hpre v (List.mem_cons_of_mem _ hv))
    unfold Fires at hu
    simp only [List.cons_append]
    unfold ScanTransitions
    by_cases hb : u.ConditionDelegate.IsBound Env = true
    · have hx : u.ConditionDelegate.Execute Env = false := by simpa [hb] using hu
      simp [hb, hx, hrest]
    · simp [hb, hrest]

/-- The sequence of an origin after one registration. -/
theorem TransitionsOf_RegisterTransitionSourced (this : Nat) (M : USSM_StateMachine)
    (t : FStateTransition) (o : Nat) :
    TransitionsOf (RegisterTransitionSourced this M t) o =
      if t.OriginState = o then TransitionsOf M o ++ [StoredTransition this t]
      else TransitionsOf M o := by
  rw [RegisterTransitionSourced_eq]
  unfold TransitionsOf
  simp only
  rw [TMap_Find_Add]
  by_cases h : t.OriginState = o
  · subst h; simp
  · simp [h]

/-- The sequence of an origin after a batch registration. -/
theorem TransitionsOf_RegisterMultipleTransitions (this : Nat) (L : List FStateTransition)
    (o : Nat) :
    ∀ M : USSM_StateMachine,
      TransitionsOf (RegisterMultipleTransitions this M L) o =
        TransitionsOf M o ++
          (L.filter (fun t => decide (t.OriginState = o))).map (StoredTransition this) := by
  induction L with
  | nil => intro M; simp [RegisterMultipleTransitions]
  | cons t rest ih =>
    intro M
    unfold RegisterMultipleTransitions
    rw [ih, TransitionsOf_RegisterTransitionSourced, List.filter_cons]
    by_cases h : t.OriginState = o
    · simp [h]
    · simp [h]

theorem RegisterMultipleTransitions_eq_foldl (this : Nat) (L : List FStateTransition) :
    ∀ M : USSM_StateMachine,
      RegisterMultipleTransitions this M L = RegisterEachInOrder this M L := by
  induction L with
  | nil => intro M; rfl
  | cons t rest ih =>
    intro M
    unfold RegisterMultipleTransitions RegisterEachInOrder
    rw [ih]
    rfl

theorem TArrayIndex_lt (StateNames : List String) (i : Nat) (h : i < StateNames.length) :
    TArrayIndex StateNames i = .ok (StateNames.getD i "") := by
  unfold TArrayIndex
  simp [List.getD, List.getElem?_eq_getElem h]

/-- The inner loop of auto registration, on a list of at most 255 names: from
the counter value `j` with `k` names left and enough fuel, it ends, appends the
transitions to the targets `j, .., j + k - 1` to the sequence of the origin
`i` and changes nothing else. -/
theorem AutoInnerLoop_spec (this : Nat) (StateNames : List String) (P C : String) (i : Nat)
    (hi : i < StateNames.length) (hn : StateNames.length ≤ 255) :
    ∀ (k j fuel : Nat) (M : USSM_StateMachine), j + k = StateNames.length → k + 1 ≤ fuel →
      ∃ M', AutoInnerLoop this StateNames P C i fuel j M = some (.ok M')
        ∧ (∀ o, TransitionsOf M' o =
            if i = o then
              TransitionsOf M o ++ (List.range' j k).map (AutoTransition this StateNames P C i)
            else TransitionsOf M o)
        ∧ M'.States = M.States ∧ M'.ActiveState = M.ActiveState
        ∧ M'.BufferedNewState = M.BufferedNewState := by
  intro k
  induction k with
  | zero =>
    intro j fuel M hj hf
    obtain ⟨f, rfl⟩ : ∃ f, fuel = f + 1 := ⟨fuel - 1, by omega⟩
    have hjn : ¬ j < StateNames.length := by omega
    refine ⟨M, ?_, ?_, rfl, rfl, rfl⟩
    · simp [AutoInnerLoop, hjn]
    · intro o; simp
  | succ k ih =>
    intro j fuel M hj hf
    obtain ⟨f, rfl⟩ : ∃ f, fuel = f + 1 := ⟨fuel - 1, by omega⟩
    have hjn : j < StateNames.length := by omega
    have hmod : (j + 1) % 256 = j + 1 := Nat.mod_eq_of_lt (by omega)
    obtain ⟨M', hM', htr, hs, ha, hb⟩ := ih (j + 1) f
      (RegisterTransitionLocal this M i j (P ++ StateNames.getD i "" ++ C ++ StateNames.getD j ""))
      (by omega) (by omega)
    refine ⟨M', ?_, ?_, ?_, ?_, ?_⟩
    · unfold AutoInnerLoop
      simp only [hjn, if_true, TArrayIndex_lt StateNames i hi, TArrayIndex_lt StateNames j hjn,
        hmod]
      exact hM'
    · intro o
      rw [htr o]
      unfold RegisterTransitionLocal
      rw [TransitionsOf_RegisterTransitionSourced]
      by_cases hio : i = o
      · subst hio
        simp [FStateTransition.Make, AutoTransition, List.range'_succ]
      · simp [FStateTransition.Make, hio]
    · rw [hs]; unfold RegisterTransitionLocal; rw [RegisterTransitionSourced_eq]
    · rw [ha]; unfold RegisterTransitionLocal; rw [RegisterTransitionSourced_eq]
    · rw [hb]; unfold RegisterTransitionLocal; rw [RegisterTransitionSourced_eq]

/-- The outer loop of auto registration, on a list of at most 255 names: from
the counter value `i` with `k` names left and enough fuel, it ends, appends to
the sequence of each origin `i, .., i + k - 1` the transitions to all targets
and changes nothing else. -/
theorem AutoOuterLoop_spec (this : Nat) (StateNames : List String) (P C : String)
    (hn : StateNames.length ≤ 255) :
    ∀ (k i fuel : Nat) (M : USSM_StateMachine), i + k = StateNames.length →
      k + StateNames.length + 1 ≤ fuel →
      ∃ M', AutoOuterLoop this StateNames P C fuel i M = some (.ok M')
        ∧ (∀ o, TransitionsOf M' o =
            if i ≤ o ∧ o < i + k then
              TransitionsOf M o ++
                (List.range StateNames.length).map (AutoTransition this StateNames P C o)
            else TransitionsOf M o)
        ∧ M'.States = M.States ∧ M'.ActiveState = M.ActiveState
        ∧ M'.BufferedNewState = M.BufferedNewState := by
  intro k
  induction k with
  | zero =>
    intro i fuel M hi hf
    obtain ⟨f, rfl⟩ : ∃ f, fuel = f + 1 := ⟨fuel - 1, by omega⟩
    have hin : ¬ i < StateNames.length := by omega
    refine ⟨M, ?_, ?_, rfl, rfl, rfl⟩
    · simp [AutoOuterLoop, hin]
    · intro o
      have hno : ¬ (i ≤ o ∧ o < i + 0) := by omega
      rw [if_neg hno]
  | succ k ih =>
    intro i fuel M hi hf
    obtain ⟨f, rfl⟩ : ∃ f, fuel = f + 1 := ⟨fuel - 1, by omega⟩
    have hin : i < StateNames.length := by omega
    have hmod : (i + 1) % 256 = i + 1 := Nat.mod_eq_of_lt (by omega)
    obtain ⟨M1, hM1, htr1, hs1, ha1, hb1⟩ := AutoInnerLoop_spec this StateNames P C i hin hn
      StateNames.length 0 f M (by omega) (by omega)
    obtain ⟨M', hM', htr, hs, ha, hb⟩ := ih (i + 1) f M1 (by omega) (by omega)
    refine ⟨M', ?_, ?_, by rw [hs, hs1], by rw [ha, ha1], by rw [hb, hb1]⟩
    · unfold AutoOuterLoop
      simp only [hin, if_true, hM1, hmod]
      exact hM'
    · intro o
      rw [htr o, htr1 o, List.range_eq_range']
      by_cases hio : i = o
      · subst hio
        have h1 : ¬ (i + 1 ≤ i ∧ i < i + 1 + k) := by omega
        have h2 : i ≤ i ∧ i < i + (k + 1) := by omega
        simp [h1, h2]
      · by_cases hr : i + 1 ≤ o ∧ o < i + 1 + k
        · have h2 : i ≤ o ∧ o < i + (k + 1) := by omega
          simp [hio, hr, h2]
        · have h2 : ¬ (i ≤ o ∧ o < i + (k + 1)) := by omega
          simp [hio, hr, h2]

theorem Fires_of_unbound (Env : CondEnv) (t : FStateTransition)
    (h : t.ConditionDelegate.IsBound Env = false) : Fires Env t = false := by
  simp [Fires, h]

theorem Contains_iff_Find {V : Type} (m : TMap Nat V) (k : Nat) :
    TMap.Contains m k = true ↔ ∃ v, TMap.Find m k = some v := by
  unfold TMap.Contains
  exact Option.isSome_iff_exists

theorem IsRegistered_of_live (Objects : ObjectHeap) (M : USSM_StateMachine) (k : Nat)
    (hlive : StatesLive Objects M) (hk : TMap.Contains M.States k = true) :
    IsRegistered Objects M k = true := by
  obtain ⟨p, hp⟩ := (Contains_iff_Find _ _).1 hk
  simp [IsRegistered, hp, hlive k p hp]

/-- The first transition whose condition fires, if there is one. -/
theorem first_firing_split (Env : CondEnv) (ts : List FStateTransition) :
    (∀ u ∈ ts, Fires Env u = false) ∨
      ∃ pre t post, ts = pre ++ t :: post ∧ (∀ u ∈ pre, Fires Env u = false)
        ∧ Fires Env t = true := by
  induction ts with
  | nil => left; intro u hu; cases hu
  | cons t rest ih =>
    by_cases ht : Fires Env t = true
    · right
      exact ⟨[], t, rest, rfl, by intro u hu; simp at hu, ht⟩
    · have htf : Fires Env t = false := by
        cases h : Fires Env t
        · rfl
        · exact absurd h ht
      cases ih with
      | inl hall =>
        left
        intro u hu
        rcases List.mem_cons.1 hu with h | h
        · rw [h]; exact htf
        · exact hall u h
      | inr hex =>
        obtain ⟨pre, t', post, hsplit, hpre, ht'⟩ := hex
        right
        refine ⟨t :: pre, t', post, by rw [hsplit]; rfl, ?_, ht'⟩
        intro u hu
        rcases List.mem_cons.1 hu with h | h
        · rw [h]; exact htf
        · exact hpre u h

/-- The tick of a machine with no pending forced state whose active state is
registered and either locked or without an entry in `TransitionMap`: the
machine is unchanged and `UpdateState` is called. -/
theorem UpdateStateMachine_no_scan (Env : CondEnv) (Objects : ObjectHeap) (M : USSM_StateMachine)
    (DeltaTime p : Nat) (o : USSM_StateBase)
    (hbuf : M.BufferedNewState = 0) (hat : StateAt Objects M.States M.ActiveState = .ok p)
    (hobj : Deref Objects p = .ok o)
    (hskip : TMap.Contains M.TransitionMap M.ActiveState = false ∨ o.IsLocked = true) :
    UpdateStateMachine Env Objects M DeltaTime =
      .ok (M, [Event.UpdateState p DeltaTime, Event.OnUpdateStateMachine DeltaTime]) := by
  obtain ⟨hf, hv⟩ := (StateAt_eq_ok_iff _ _ _ _).1 hat
  unfold UpdateStateMachine CommitBranches ConditionalGuard
  by_cases hc : TMap.Contains M.TransitionMap M.ActiveState = true
  · have hl : o.IsLocked = true := by
      cases hskip with
      | inl h => rw [hc] at h; cases h
      | inr h => exact h
    simp [hbuf, hc, TMap.Index, hf, hv, hobj, hl, hat]
  · simp [hbuf, hc, hat]

/-- The tick of a well-formed machine whose stored pointers are live completes;
it keeps `States` and `TransitionMap`, clears `BufferedNewState` and ends with
an active state that is a key of `States`. -/
theorem UpdateStateMachine_total (Env : CondEnv) (Objects : ObjectHeap) (M : USSM_StateMachine)
    (DeltaTime : Nat) (hwf : WellFormed M) (hlive : StatesLive Objects M) :
    ∃ M' ev, UpdateStateMachine Env Objects M DeltaTime = .ok (M', ev)
      ∧ M'.States = M.States ∧ M'.TransitionMap = M.TransitionMap
      ∧ M'.BufferedNewState = 0 ∧ TMap.Contains M.States M'.ActiveState = true := by
  obtain ⟨hno0, hbufk, hact, htar⟩ := hwf
  by_cases hb : M.BufferedNewState = 0
  · have hca : TMap.Contains M.States M.ActiveState = true := by
      cases hact with
      | inl h => exact h
      | inr h => rw [hb, hno0] at h; cases h.2
    have hreg := IsRegistered_of_live Objects M _ hlive hca
    obtain ⟨p, hat⟩ := (IsRegistered_iff _ _ _).1 hreg
    obtain ⟨hf, hv⟩ := (StateAt_eq_ok_iff _ _ _ _).1 hat
    have hp0 : p ≠ 0 := by
      intro h0; simp [IsValid, h0] at hv
    obtain ⟨o, ho⟩ : ∃ o, TMap.Find Objects p = some o := by
      apply (Contains_iff_Find _ _).1
      simp [IsValid] at hv
      exact hv.2
    have hder : Deref Objects p = .ok o := by simp [Deref, hp0, ho]
    by_cases hskip : TMap.Contains M.TransitionMap M.ActiveState = false ∨ o.IsLocked = true
    · exact ⟨M, _, UpdateStateMachine_no_scan Env Objects M DeltaTime p o hb hat hder hskip,
        rfl, rfl, hb, hca⟩
    · have hc : TMap.Contains M.TransitionMap M.ActiveState = true := by
        cases h : TMap.Contains M.TransitionMap M.ActiveState
        · exact absurd (Or.inl h) hskip
        · rfl
      have hunl : o.IsLocked = false := by
        cases h : o.IsLocked
        · rfl
        · exact absurd (Or.inr h) hskip
      obtain ⟨ts, hts⟩ := (Contains_iff_Find _ _).1 hc
      have hscan := UpdateStateMachine_scan Env Objects M DeltaTime p o ts hb hat hder hunl hts
      cases first_firing_split Env ts with
      | inl hnone =>
        rw [ScanTransitions_none Env Objects M ts hnone] at hscan
        simp only [hat] at hscan
        exact ⟨M, _, hscan, rfl, rfl, hb, hca⟩
      | inr hex =>
        obtain ⟨pre, t, post, hsplit, hpre, ht⟩ := hex
        have htk : TMap.Contains M.States t.TargetState = true :=
          htar _ ts t hts (by rw [hsplit]; simp)
        obtain ⟨q, _, hfirst⟩ := ScanTransitions_first Env Objects M pre t post hpre ht
          (Or.inr hreg) (IsRegistered_of_live Objects M _ hlive htk)
        rw [← hsplit] at hfirst
        rw [hfirst] at hscan
        exact ⟨_, _, hscan, rfl, rfl, hb, htk⟩
  · have hbk : TMap.Contains M.States M.BufferedNewState = true := by
      cases hbufk with
      | inl h => exact absurd h hb
      | inr h => exact h
    have hactive : M.ActiveState = 0 ∨ IsRegistered Objects M M.ActiveState = true := by
      cases hact with
      | inl h => exact Or.inr (IsRegistered_of_live Objects M _ hlive h)
      | inr h => exact Or.inl h.1
    obtain ⟨q, _, hst⟩ := UpdateStateMachine_forced Env Objects M DeltaTime hb hactive
      (IsRegistered_of_live Objects M _ hlive hbk)
    exact ⟨_, _, hst, rfl, rfl, rfl, hbk⟩

theorem Deref_error_null (Objects : ObjectHeap) (p : Nat) (e : Fault)
    (h : Deref Objects p = .error e) : e = Fault.NullPointer := by
  unfold Deref at h
  split at h
  · cases h; rfl
  · split at h
    · cases h
    · cases h; rfl

/-- Going through the pointer stored under a key of `States` looks up no
missing key: it can only fault on the pointer. -/
theorem StateAt_error_null (Objects : ObjectHeap) (States : TMap Nat Nat) (k : Nat) (e : Fault)
    (hk : TMap.Contains States k = true) (h : StateAt Objects States k = .error e) :
    e = Fault.NullPointer := by
  obtain ⟨p, hp⟩ := (Contains_iff_Find _ _).1 hk
  unfold StateAt TMap.Index at h
  simp only [hp] at h
  cases hd : Deref Objects p with
  | error e' =>
    simp [hd] at h
    subst h
    exact Deref_error_null Objects p _ hd
  | ok o => simp [hd] at h

theorem StateTransition_error_null (Objects : ObjectHeap) (M : USSM_StateMachine) (n : Nat)
    (e : Fault)
    (hactive : M.ActiveState = 0 ∨ TMap.Contains M.States M.ActiveState = true)
    (hn : TMap.Contains M.States n = true)
    (h : StateTransition Objects M n = .error e) : e = Fault.NullPointer := by
  unfold StateTransition at h
  by_cases h0 : M.ActiveState = 0
  · simp only [h0, ne_eq, not_true_eq_false, if_false] at h
    cases hq : StateAt Objects M.States n with
    | error e' =>
      simp [hq] at h
      subst h
      exact StateAt_error_null Objects M.States n _ hn hq
    | ok q => simp [hq] at h
  · have hca : TMap.Contains M.States M.ActiveState = true := by
      cases hactive with
      | inl h1 => exact absurd h1 h0
      | inr h1 => exact h1
    simp only [h0, ne_eq, not_false_eq_true, if_true] at h
    cases hp : StateAt Objects M.States M.ActiveState with
    | error e' =>
      simp [hp] at h
      subst h
      exact StateAt_error_null Objects M.States _ _ hca hp
    | ok p =>
      cases hq : StateAt Objects M.States n with
      | error e' =>
        simp [hp, hq] at h
        subst h
        exact StateAt_error_null Objects M.States n _ hn hq
      | ok q => simp [hp, hq] at h

theorem ScanTransitions_error_null (Env : CondEnv) (Objects : ObjectHeap) (M : USSM_StateMachine)
    (hactive : M.ActiveState = 0 ∨ TMap.Contains M.States M.ActiveState = true)
    (ts : List FStateTransition) :
    (∀ t ∈ ts, TMap.Contains M.States t.TargetState = true) →
    ∀ e, ScanTransitions Env Objects M ts = .error e → e = Fault.NullPointer := by
  induction ts with
  | nil =>
    intro _ e h
    simp [ScanTransitions] at h
  | cons t rest ih =>
    intro htar e h
    have hrest := ih (fun u hu => htar u (List.mem_cons_of_mem _ hu))
    unfold ScanTransitions at h
    by_cases hb : t.ConditionDelegate.IsBound Env = true
    · by_cases hx : t.ConditionDelegate.Execute Env = true
      · simp only [hb, hx, if_true] at h
        cases hst : StateTransition Objects M t.TargetState with
        | error e' =>
          simp [hst] at h
          subst h
          exact StateTransition_error_null Objects M _ _ hactive
            (htar t (List.mem_cons_self _ _)) hst
        | ok res =>
          obtain ⟨M1, ev1⟩ := res
          simp [hst] at h
      · simp only [hb, hx, if_true] at h
        cases hsc : ScanTransitions Env Objects M rest with
        | error e' =>
          simp [hsc] at h
          subst h
          exact hrest _ hsc
        | ok res =>
          obtain ⟨M1, ev1, hp1⟩ := res
          simp [hsc] at h
    · simp only [hb] at h
      exact hrest e h

/-- The tick of a well-formed machine looks up no missing key in `States` or
`TransitionMap`: if it faults at all, it faults on a pointer. -/
theorem UpdateStateMachine_error_null (Env : CondEnv) (Objects : ObjectHeap)
    (M : USSM_StateMachine) (DeltaTime : Nat) (hwf : WellFormed M) (e : Fault)
    (h : UpdateStateMachine Env Objects M DeltaTime = .error e) : e = Fault.NullPointer := by
  obtain ⟨hno0, hbufk, hact, htar⟩ := hwf
  by_cases hb : M.BufferedNewState = 0
  · have hca : TMap.Contains M.States M.ActiveState = true := by
      cases hact with
      | inl h1 => exact h1
      | inr h1 => rw [hb, hno0] at h1; cases h1.2
    obtain ⟨p, hp⟩ := (Contains_iff_Find _ _).1 hca
    have hcommit : ∀ e', CommitBranches Env Objects M = .error e' → e' = Fault.NullPointer := by
      intro e' hc
      unfold CommitBranches ConditionalGuard at hc
      simp only [hb, ne_eq, not_true_eq_false, if_false, TMap.Index, hp] at hc
      by_cases hct : TMap.Contains M.TransitionMap M.ActiveState = true
      · obtain ⟨ts, hts⟩ := (Contains_iff_Find _ _).1 hct
        simp only [hct, if_true, hts] at hc
        cases hv : IsValid Objects p with
        | false => simp [hv] at hc
        | true =>
          simp only [hv] at hc
          cases hd : Deref Objects p with
          | error e2 =>
            simp [hd] at hc
            subst hc
            exact Deref_error_null Objects p _ hd
          | ok o =>
            simp only [hd] at hc
            by_cases hl : o.IsLocked = true
            · simp [hl] at hc
            · simp only [hl] at hc
              exact ScanTransitions_error_null Env Objects M (Or.inr hca) ts
                (fun t ht => htar _ ts t hts ht) e' (by simpa using hc)
      · simp [hct] at hc
    unfold UpdateStateMachine at h
    cases hcb : CommitBranches Env Objects M with
    | error e' =>
      simp [hcb] at h
      subst h
      exact hcommit _ hcb
    | ok res =>
      obtain ⟨M1, ev1, happened⟩ := res
      obtain ⟨hs, ha⟩ := CommitBranches_active Env Objects M M1 ev1 happened hcb
      have hca1 : TMap.Contains M1.States M1.ActiveState = true := by
        rw [hs]
        cases ha with
        | inl h1 => rw [h1]; exact hca
        | inr h1 => exact h1
      simp only [hcb] at h
      cases happened with
      | true => simp at h
      | false =>
        simp only [Bool.not_false, if_true] at h
        cases hq : StateAt Objects M1.States M1.ActiveState with
        | error e' =>
          simp [hq] at h
          subst h
          exact StateAt_error_null Objects M1.States _ _ hca1 hq
        | ok q => simp [hq] at h
  · have hbk : TMap.Contains M.States M.BufferedNewState = true := by
      cases hbufk with
      | inl h1 => exact absurd h1 hb
      | inr h1 => exact h1
    have hactive : M.ActiveState = 0 ∨ TMap.Contains M.States M.ActiveState = true := by
      cases hact with
      | inl h1 => exact Or.inr h1
      | inr h1 => exact Or.inl h1.1
    unfold UpdateStateMachine CommitBranches at h
    simp only [hb, ne_eq, not_false_eq_true, if_true] at h
    cases hst : StateTransition Objects M M.BufferedNewState with
    | error e' =>
      simp [hst] at h
      subst h
      exact StateTransition_error_null Objects M _ _ hactive hbk hst
    | ok res =>
      obtain ⟨M1, ev1⟩ := res
      simp [hst] at h

/-- `RemoveState` keeps the value stored under every other key of `States`. -/
theorem RemoveState_Find_other (M : USSM_StateMachine) (InStateID k : Nat) (h : InStateID ≠ k) :
    TMap.Find (RemoveState M InStateID).States k = TMap.Find M.States k := by
  unfold RemoveState
  by_cases ha : InStateID = M.ActiveState
  · simp only [ha, if_true]
    split
    · simp only
      exact TMap_Find_Remove _ _ _ (by rw [← ha]; exact h)
    · rfl
  · simp only [ha, if_false]
    split
    · simp only
      exact TMap_Find_Remove _ _ _ h
    · rfl

theorem GetState_of_Find (M : USSM_StateMachine) (k s : Nat)
    (h : TMap.Find M.States k = some s) : GetState M k = s := by
  simp [GetState, TMap.Contains, h]

/-- `AddNewStateExisting` makes the state retrievable under the identity when
the state has no owner, or its owner is another live machine, or its owner is
the machine itself and its `StateID` is not the identity. -/
theorem AddNewStateExisting_retrievable (W : World) (this InStateID s : Nat)
    (M : USSM_StateMachine) (o : USSM_StateBase)
    (hM : TMap.Find W.Machines this = some M) (hs : s ≠ 0)
    (ho : TMap.Find W.Objects s = some o)
    (howner : o.StateMachine = 0
      ∨ (o.StateMachine ≠ this ∧ TMap.Contains W.Machines o.StateMachine = true)
      ∨ (o.StateMachine = this ∧ o.GetStateID ≠ InStateID)) :
    ∃ W' ev M', AddNewStateExisting W this InStateID s = .ok (W', ev)
      ∧ TMap.Find W'.Machines this = some M' ∧ GetState M' InStateID = s := by
  have hget : ∀ St : TMap Nat Nat, TMap.Find (TMap.Add St InStateID s) InStateID = some s := by
    intro St; rw [TMap_Find_Add]; simp
  have hd : Deref W.Objects s = .ok o := by simp [Deref, hs, ho]
  unfold AddNewStateExisting STATEMACHINE_SetStateMachine
  simp only [hM, hd]
  by_cases h0 : o.StateMachine = 0
  · simp only [h0, ne_eq, not_true_eq_false, if_false]
    refine ⟨_, _, { M with States := TMap.Add M.States InStateID s }, rfl, ?_,
      GetState_of_Find _ _ _ (hget _)⟩
    simp only; rw [TMap_Find_Add]; simp
  · by_cases hself : o.StateMachine = this
    · have hid : o.GetStateID ≠ InStateID := by
        rcases howner with h | h | h
        · exact absurd h h0
        · exact absurd hself h.1
        · exact h.2
      have hfind : TMap.Find (TMap.Add W.Machines this
          { M with States := TMap.Add M.States InStateID s }) o.StateMachine
          = some { M with States := TMap.Add M.States InStateID s } := by
        rw [TMap_Find_Add]; simp [hself]
      simp only [h0, ne_eq, not_false_eq_true, if_true, hfind]
      refine ⟨_, _, RemoveState { M with States := TMap.Add M.States InStateID s } o.GetStateID,
        rfl, ?_, ?_⟩
      · simp only
        rw [TMap_Find_Add]; simp [hself]
      · apply GetState_of_Find
        rw [RemoveState_Find_other _ _ _ hid]
        exact hget _
    · have hc : TMap.Contains W.Machines o.StateMachine = true := by
        rcases howner with h | h | h
        · exact absurd h h0
        · exact h.2
        · exact absurd h.1 hself
      obtain ⟨Old, hold⟩ := (Contains_iff_Find _ _).1 hc
      have hfind : TMap.Find (TMap.Add W.Machines this
          { M with States := TMap.Add M.States InStateID s }) o.StateMachine = some Old := by
        rw [TMap_Find_Add]; simp [Ne.symm hself, hold]
      simp only [h0, ne_eq, not_false_eq_true, if_true, hfind]
      refine ⟨_, _, { M with States := TMap.Add M.States InStateID s }, rfl, ?_,
        GetState_of_Find _ _ _ (hget _)⟩
      simp only
      rw [TMap_Find_Add, TMap_Find_Add]
      simp [hself]

/-- With 256 or more names the inner loop of auto registration never ends: the
`uint8` counter stays below 256, hence below the number of names, and every
amount of fuel runs out. -/
theorem AutoInnerLoop_diverges (this : Nat) (StateNames : List String) (P C : String)
    (State1 : Nat) (hn : 256 ≤ StateNames.length) (h1 : State1 < StateNames.length) :
    ∀ (fuel State2 : Nat) (M : USSM_StateMachine), State2 < 256 →
      AutoInnerLoop this StateNames P C State1 fuel State2 M = none := by
  intro fuel
  induction fuel with
  | zero => intro State2 M _; rfl
  | succ f ih =>
    intro State2 M h2
    have h2n : State2 < StateNames.length := by omega
    unfold AutoInnerLoop
    simp only [h2n, if_true, TArrayIndex_lt StateNames State1 h1,
      TArrayIndex_lt StateNames State2 h2n]
    exact ih _ _ (Nat.mod_lt _ (by decide))

/-- With 256 or more names auto registration never ends. -/
theorem AutoOuterLoop_diverges (this : Nat) (StateNames : List String) (P C : String)
    (hn : 256 ≤ StateNames.length) (fuel : Nat) (M : USSM_StateMachine) :
    AutoOuterLoop this StateNames P C fuel 0 M = none := by
  cases fuel with
  | zero => rfl
  | succ f =>
    have h0 : 0 < StateNames.length := by omega
    unfold AutoOuterLoop
    simp only [h0, if_true,
      AutoInnerLoop_diverges this StateNames P C 0 hn h0 f 0 M (by decide)]

/-- The inner loop of auto registration reads `StateNames` inside the list only. -/
theorem AutoInnerLoop_no_fault (this : Nat) (StateNames : List String) (P C : String)
    (State1 : Nat) (h1 : State1 < StateNames.length) :
    ∀ (fuel State2 : Nat) (M : USSM_StateMachine) (e : Fault),
      AutoInnerLoop this StateNames P C State1 fuel State2 M ≠ some (.error e) := by
  intro fuel
  induction fuel with
  | zero => intro State2 M e h; simp [AutoInnerLoop] at h
  | succ f ih =>
    intro State2 M e h
    unfold AutoInnerLoop at h
    by_cases h2n : State2 < StateNames.length
    · simp only [h2n, if_true, TArrayIndex_lt StateNames State1 h1,
        TArrayIndex_lt StateNames State2 h2n] at h
      exact ih _ _ e h
    · simp [h2n] at h

/-- Auto registration reads `StateNames` inside the list only. -/
theorem AutoOuterLoop_no_fault (this : Nat) (StateNames : List String) (P C : String) :
    ∀ (fuel State1 : Nat) (M : USSM_StateMachine) (e : Fault),
      AutoOuterLoop this StateNames P C fuel State1 M ≠ some (.error e) := by
  intro fuel
  induction fuel with
  | zero => intro State1 M e h; simp [AutoOuterLoop] at h
  | succ f ih =>
    intro State1 M e h
    unfold AutoOuterLoop at h
    by_cases h1 : State1 < StateNames.length
    · simp only [h1, if_true] at h
      cases hin : AutoInnerLoop this StateNames P C State1 f 0 M with
      | none => simp [hin] at h
      | some r =>
        cases r with
        | error e' => exact AutoInnerLoop_no_fault this StateNames P C State1 h1 f 0 M e' hin
        | ok M1 =>
          simp only [hin] at h
          exact ih _ _ e h
    · simp [h1] at h

/-- A completed scan keeps `TransitionMap` and `BufferedNewState`. -/
theorem ScanTransitions_frame (Env : CondEnv) (Objects : ObjectHeap) (M : USSM_StateMachine)
    (ts : List FStateTransition) :
    ∀ (M' : USSM_StateMachine) (ev : List Event) (happened : Bool),
      ScanTransitions Env Objects M ts = .ok (M', ev, happened) →
      M'.TransitionMap = M.TransitionMap ∧ M'.BufferedNewState = M.BufferedNewState := by
  induction ts with
  | nil =>
    intro M' ev happened h
    simp [ScanTransitions] at h
    obtain ⟨h1, _, _⟩ := h
    subst h1
    exact ⟨rfl, rfl⟩
  | cons t rest ih =>
    intro M' ev happened h
    unfold ScanTransitions at h
    by_cases hb : t.ConditionDelegate.IsBound Env = true
    · by_cases hx : t.ConditionDelegate.Execute Env = true
      · simp only [hb, hx, if_true] at h
        cases hst : StateTransition Objects M t.TargetState with
        | error e => simp [hst] at h
        | ok r =>
          obtain ⟨M1, ev1⟩ := r
          simp [hst] at h
          obtain ⟨h1, _, _⟩ := h
          obtain ⟨hM1, _⟩ := StateTransition_inv Objects M M1 _ ev1 hst
          subst h1; subst hM1
          exact ⟨rfl, rfl⟩
      · simp only [hb, hx, if_true] at h
        cases hsc : ScanTransitions Env Objects M rest with
        | error e => simp [hsc] at h
        | ok r =>
          obtain ⟨M1, ev1, hp1⟩ := r
          simp [hsc] at h
          obtain ⟨h1, _, _⟩ := h
          subst h1
          exact ih M1 ev1 hp1 hsc
    · simp only [hb] at h
      exact ih M' ev happened h

/-- The committing branches, when they complete, keep `TransitionMap` and end
with `BufferedNewState = 0`; the forced branch ends at the buffered identity,
which is then a key of `States`. -/
theorem CommitBranches_frame (Env : CondEnv) (Objects : ObjectHeap) (M : USSM_StateMachine) :
    ∀ (M1 : USSM_StateMachine) (ev1 : List Event) (happened : Bool),
      CommitBranches Env Objects M = .ok (M1, ev1, happened) →
      M1.TransitionMap = M.TransitionMap ∧ M1.BufferedNewState = 0
        ∧ (M.BufferedNewState ≠ 0 → TMap.Contains M.States M1.ActiveState = true) := by
  intro M1 ev1 happened hut
  unfold CommitBranches at hut
  by_cases hb : M.BufferedNewState = 0
  · simp only [hb, ne_eq, not_true_eq_false, if_false] at hut
    cases hg : ConditionalGuard Objects M with
    | error e => simp [hg] at hut
    | ok g =>
      cases g with
      | false =>
        simp [hg] at hut
        obtain ⟨h1, _, _⟩ := hut
        subst h1
        exact ⟨rfl, hb, fun h => absurd hb h⟩
      | true =>
        simp only [hg] at hut
        cases hi : TMap.Index M.States M.ActiveState with
        | error e => simp [hi] at hut
        | ok p =>
          simp only [hi] at hut
          cases hd : Deref Objects p with
          | error e => simp [hd] at hut
          | ok o =>
            simp only [hd] at hut
            by_cases hl : o.IsLocked = true
            · simp [hl] at hut
              obtain ⟨h1, _, _⟩ := hut
              subst h1
              exact ⟨rfl, hb, fun h => absurd hb h⟩
            · simp only [hl] at hut
              cases ht : TMap.Index M.TransitionMap M.ActiveState with
              | error e => simp [ht] at hut
              | ok ts =>
                simp [ht] at hut
                obtain ⟨f1, f2⟩ := ScanTransitions_frame Env Objects M ts M1 ev1 happened hut
                exact ⟨f1, by rw [f2]; exact hb, fun h => absurd hb h⟩
  · simp only [hb, ne_eq, not_false_eq_true, if_true] at hut
    cases hst : StateTransition Objects M M.BufferedNewState with
    | error e => simp [hst] at hut
    | ok r =>
      obtain ⟨M2, ev2⟩ := r
      simp [hst] at hut
      obtain ⟨h1, _, _⟩ := hut
      obtain ⟨hM2, q, hq, _⟩ := StateTransition_inv Objects M M2 _ ev2 hst
      subst h1; subst hM2
      have hf := ((StateAt_eq_ok_iff _ _ _ _).1 hq).1
      exact ⟨rfl, rfl, fun _ => by simp [TMap.Contains, hf]⟩

/-- Every completed tick of a well-formed machine keeps `States` and
`TransitionMap`, clears `BufferedNewState` and ends with an active state that
is a key of `States`; the pointers stored in `States` need not be live. -/
theorem UpdateStateMachine_post (Env : CondEnv) (Objects : ObjectHeap)
    (M M' : USSM_StateMachine) (DeltaTime : Nat) (ev : List Event) (hwf : WellFormed M)
    (h : UpdateStateMachine Env Objects M DeltaTime = .ok (M', ev)) :
    M'.States = M.States ∧ M'.TransitionMap = M.TransitionMap
      ∧ M'.BufferedNewState = 0 ∧ TMap.Contains M.States M'.ActiveState = true := by
  obtain ⟨hno0, _, hact, _⟩ := hwf
  unfold UpdateStateMachine at h
  cases hut : CommitBranches Env Objects M with
  | error e => simp [hut] at h
  | ok r =>
    obtain ⟨M1, ev1, happened⟩ := r
    simp only [hut] at h
    obtain ⟨hs, ha⟩ := CommitBranches_active Env Objects M M1 ev1 happened hut
    obtain ⟨ht, hb0, hforced⟩ := CommitBranches_frame Env Objects M M1 ev1 happened hut
    have hkey : TMap.Contains M.States M1.ActiveState = true := by
      by_cases hb : M.BufferedNewState = 0
      · cases ha with
        | inl h1 =>
          rw [h1]
          cases hact with
          | inl h2 => exact h2
          | inr h2 => rw [hb, hno0] at h2; cases h2.2
        | inr h1 => exact h1
      · exact hforced hb
    split at h
    · cases h
    · cases h
      exact ⟨hs, ht, hb0, hkey⟩

/-! ## Theorems -/

/-- C1. Forced overrides conditional: on a machine whose active state is 0 or
registered, after `ForceCallStateTransition X` with `X` registered and not 0,
the tick completes with `ActiveState = X` for every condition environment and
every transition table, and its trace has no condition execution and no
`UpdateState` call. -/
theorem C1_forced_overrides_conditional (Env : CondEnv) (Objects : ObjectHeap)
    (M : USSM_StateMachine) (X DeltaTime : Nat)
    (hactive : M.ActiveState = 0 ∨ IsRegistered Objects M M.ActiveState = true)
    (hX0 : X ≠ 0) (hX : IsRegistered Objects M X = true) :
    ∃ M' ev, UpdateStateMachine Env Objects (ForceCallStateTransition M X) DeltaTime = .ok (M', ev)
      ∧ M'.ActiveState = X
      ∧ (∀ e ∈ ev, e.isConditionExecute = false)
      ∧ (∀ e ∈ ev, e.isUpdateState = false) := by
  obtain ⟨q, _, hst⟩ := UpdateStateMachine_forced Env Objects (ForceCallStateTransition M X)
    DeltaTime hX0 hactive hX
  refine ⟨_, _, hst, rfl, ?_, ?_⟩
  · intro e he
    rcases List.mem_append.1 he with h | h
    · exact (ExitTrace_no_condition _ e h).1
    · simp at h
      rcases h with h | h | h | h <;> (subst h; rfl)
  · intro e he
    rcases List.mem_append.1 he with h | h
    · exact (ExitTrace_no_condition _ e h).2.1
    · simp at h
      rcases h with h | h | h | h <;> (subst h; rfl)

/-- C1, at a machine in state 1 whose transition 1 to 3 has a true condition:
forcing 2 commits to 2. -/
theorem C1_forced_overrides_conditional_witness :
    ∃ M' ev, UpdateStateMachine (fun _ _ => some true)
        [(10, {}), (20, {}), (30, {})]
        (ForceCallStateTransition
          { States := [(1, 10), (2, 20), (3, 30)], ActiveState := 1,
            TransitionMap := [(1, [FStateTransition.Make 1 3 "Cond" 7])] } 2) 0 = .ok (M', ev)
      ∧ M'.ActiveState = 2
      ∧ (∀ e ∈ ev, e.isConditionExecute = false)
      ∧ (∀ e ∈ ev, e.isUpdateState = false) :=
  C1_forced_overrides_conditional (fun _ _ => some true) [(10, {}), (20, {}), (30, {})]
    { States := [(1, 10), (2, 20), (3, 30)], ActiveState := 1,
      TransitionMap := [(1, [FStateTransition.Make 1 3 "Cond" 7])] } 2 0
    (Or.inr (by decide)) (by decide) (by decide)

/-- C5. Enter/exit pairing: a commit `StateTransition n` to a registered `n`,
on a machine whose active state is 0 or registered, completes, sets
`ActiveState` to `n`, and its trace is, in this order: `ExitState` on the state
stored under the previous active state (seen with the previous `ActiveState`)
exactly when that is not 0, then `EnterState` on the state stored under `n`
(seen with `ActiveState = n`), then `OnStateChanged (previous, n)`; nothing
else is called.  `n` may equal the previous active state. -/
theorem C5_enter_exit_pairing (Objects : ObjectHeap) (M : USSM_StateMachine) (n : Nat)
    (hactive : M.ActiveState = 0 ∨ IsRegistered Objects M M.ActiveState = true)
    (hn : IsRegistered Objects M n = true) :
    ∃ q M' ev, TMap.Find M.States n = some q
      ∧ StateTransition Objects M n = .ok (M', ev)
      ∧ M' = { M with ActiveState := n }
      ∧ (M.ActiveState = 0 →
          ev = [Event.EnterState q n, Event.OnStateChanged 0 n])
      ∧ (M.ActiveState ≠ 0 → ∃ p, TMap.Find M.States M.ActiveState = some p ∧
          ev = [Event.ExitState p M.ActiveState, Event.EnterState q n,
                Event.OnStateChanged M.ActiveState n]) := by
  obtain ⟨q, hq, hst⟩ := StateTransition_ok Objects M n hactive hn
  refine ⟨q, _, _, ((StateAt_eq_ok_iff _ _ _ _).1 hq).1, hst, rfl, ?_, ?_⟩
  · intro h0
    simp [ExitTrace, h0]
  · intro h0
    have hreg : IsRegistered Objects M M.ActiveState = true := by
      cases hactive with
      | inl h => exact absurd h h0
      | inr h => exact h
    obtain ⟨p, hp⟩ := (IsRegistered_iff _ _ _).1 hreg
    have hf := ((StateAt_eq_ok_iff _ _ _ _).1 hp).1
    exact ⟨p, hf, by simp [ExitTrace, h0, hf]⟩

/-- C5, at a self transition of state 1 and at a first commit from 0. -/
theorem C5_enter_exit_pairing_witness :
    (∃ q M' ev, TMap.Find [(1, 10), (2, 20)] 1 = some q
      ∧ StateTransition [(10, {}), (20, {})]
          { States := [(1, 10), (2, 20)], ActiveState := 1 } 1 = .ok (M', ev)
      ∧ M' = { States := [(1, 10), (2, 20)], ActiveState := 1 }
      ∧ ((1 : Nat) = 0 → ev = [Event.EnterState q 1, Event.OnStateChanged 0 1])
      ∧ ((1 : Nat) ≠ 0 → ∃ p, TMap.Find [(1, 10), (2, 20)] 1 = some p ∧
          ev = [Event.ExitState p 1, Event.EnterState q 1, Event.OnStateChanged 1 1])) :=
  C5_enter_exit_pairing [(10, {}), (20, {})]
    { States := [(1, 10), (2, 20)], ActiveState := 1 } 1 (Or.inr (by decide)) (by decide)

/-- C7. The tick of a machine with no active state does not complete: for a
freshly constructed machine, and for a machine whose active state 1 has just
been removed with `RemoveState`, line 48 indexes `States` with the key 0,
which is missing, and the hook after the tick is not reached. -/
theorem C7_fresh_machine_tick_faults (Env : CondEnv) (Objects : ObjectHeap) (DeltaTime : Nat) :
    UpdateStateMachine Env Objects {} DeltaTime = .error Fault.MissingKey
      ∧ UpdateStateMachine Env Objects
          (RemoveState { States := [(1, 10)], ActiveState := 1 } 1) DeltaTime
        = .error Fault.MissingKey := by
  exact ⟨rfl, rfl⟩

/-- C2. First match with short circuit: on a machine with no pending forced
state whose active state is registered and unlocked, with transitions `ts` in
registration order and every target registered: (1) if the condition of
`ts[i]` fires and no condition before index `i` fires, the tick completes with
`ActiveState = ts[i].TargetState`, and the condition executions of its trace
are exactly those of `ts[0..i]`, so no condition behind index `i` is
executed; (2) if no condition fires, the tick completes with `ActiveState`
unchanged after executing the conditions of the whole sequence. -/
theorem C2_first_match_short_circuit (Env : CondEnv) (Objects : ObjectHeap)
    (M : USSM_StateMachine) (DeltaTime p : Nat) (o : USSM_StateBase)
    (ts : List FStateTransition)
    (hbuf : M.BufferedNewState = 0)
    (hreg : TMap.Find M.States M.ActiveState = some p) (hp : p ≠ 0)
    (hobj : TMap.Find Objects p = some o) (hunl : o.IsLocked = false)
    (hts : TMap.Find M.TransitionMap M.ActiveState = some ts)
    (htargets : ∀ t ∈ ts, IsRegistered Objects M t.TargetState = true) :
    (∀ (i : Nat) (hi : i < ts.length), Fires Env ts[i] = true →
        (∀ u ∈ ts.take i, Fires Env u = false) →
        ∃ M' ev, UpdateStateMachine Env Objects M DeltaTime = .ok (M', ev)
          ∧ M'.ActiveState = ts[i].TargetState
          ∧ ev.filter Event.isConditionExecute = ConditionTrace Env (ts.take (i + 1)))
    ∧ ((∀ u ∈ ts, Fires Env u = false) →
        ∃ M' ev, UpdateStateMachine Env Objects M DeltaTime = .ok (M', ev)
          ∧ M'.ActiveState = M.ActiveState
          ∧ ev.filter Event.isConditionExecute = ConditionTrace Env ts) := by
  have hvalid : IsValid Objects p = true := by simp [IsValid, TMap.Contains, hp, hobj]
  have hat : StateAt Objects M.States M.ActiveState = .ok p :=
    (StateAt_eq_ok_iff _ _ _ _).2 ⟨hreg, hvalid⟩
  have hder : Deref Objects p = .ok o := by simp [Deref, hp, hobj]
  have hactive : M.ActiveState = 0 ∨ IsRegistered Objects M M.ActiveState = true :=
    Or.inr ((IsRegistered_iff _ _ _).2 ⟨p, hat⟩)
  have hscan := UpdateStateMachine_scan Env Objects M DeltaTime p o ts hbuf hat hder hunl hts
  constructor
  · intro i hi hfire hleast
    obtain ⟨hsplit, htake⟩ := List_split_at ts i hi
    obtain ⟨q, _, hfirst⟩ := ScanTransitions_first Env Objects M (ts.take i) ts[i]
      (ts.drop (i + 1)) hleast hfire hactive (htargets _ (List.getElem_mem _))
    rw [← hsplit] at hfirst
    rw [hfirst] at hscan
    refine ⟨_, _, hscan, rfl, ?_⟩
    rw [htake]
    simp [List.filter_append, ConditionTrace_filter, ExitTrace_filter, List.filter_cons,
      Event.isConditionExecute]
  · intro hnone
    rw [ScanTransitions_none Env Objects M ts hnone] at hscan
    simp only [hat] at hscan
    refine ⟨_, _, hscan, rfl, ?_⟩
    simp [List.filter_append, ConditionTrace_filter, List.filter_cons, Event.isConditionExecute]

/-- C2, at the transitions T1 (false), T2 (true), T3 (true) out of state 1 with
targets 2, 3, 4: the tick commits to 3, the target of T2, and executes T1 and
T2 only. -/
theorem C2_first_match_short_circuit_witness :
    ∃ M' ev, UpdateStateMachine (fun _ n => some (decide (n ≠ "T1")))
        [(10, {}), (20, {}), (30, {}), (40, {})]
        { States := [(1, 10), (2, 20), (3, 30), (4, 40)], ActiveState := 1,
          TransitionMap := [(1, [{ TargetState := 2, ConditionDelegate := { Object := 7, FunctionName := "T1" } },
                                 { TargetState := 3, ConditionDelegate := { Object := 7, FunctionName := "T2" } },
                                 { TargetState := 4, ConditionDelegate := { Object := 7, FunctionName := "T3" } }])] }
        0 = .ok (M', ev)
      ∧ M'.ActiveState = 3
      ∧ ev.filter Event.isConditionExecute =
          [Event.ConditionExecute 7 "T1" false, Event.ConditionExecute 7 "T2" true] :=
  (C2_first_match_short_circuit (fun _ n => some (decide (n ≠ "T1")))
    [(10, {}), (20, {}), (30, {}), (40, {})]
    { States := [(1, 10), (2, 20), (3, 30), (4, 40)], ActiveState := 1,
      TransitionMap := [(1, [{ TargetState := 2, ConditionDelegate := { Object := 7, FunctionName := "T1" } },
                             { TargetState := 3, ConditionDelegate := { Object := 7, FunctionName := "T2" } },
                             { TargetState := 4, ConditionDelegate := { Object := 7, FunctionName := "T3" } }])] }
    0 10 {}
    [{ TargetState := 2, ConditionDelegate := { Object := 7, FunctionName := "T1" } },
     { TargetState := 3, ConditionDelegate := { Object := 7, FunctionName := "T2" } },
     { TargetState := 4, ConditionDelegate := { Object := 7, FunctionName := "T3" } }]
    rfl rfl (by decide) rfl rfl rfl (by decide)).1 1 (by decide) (by decide) (by decide)

/-- C3. Lock suppresses conditionals, not force: on a machine whose active
state is registered and locked, (i) a tick with no pending forced state
completes with the machine unchanged, and its trace is the `UpdateState` call
and the hook after the tick only: no condition is executed and nothing is
committed, whatever the conditions return; (ii) a tick with a pending forced
registered identity `X` completes with `ActiveState = X`; (iii) once the state
object is unlocked with `SetStateLocked false`, the tick commits to the target
of the first transition whose condition fires. -/
theorem C3_lock_suppresses_conditionals_not_force (Env : CondEnv) (Objects : ObjectHeap)
    (M : USSM_StateMachine) (DeltaTime p : Nat) (o : USSM_StateBase)
    (hreg : TMap.Find M.States M.ActiveState = some p) (hp : p ≠ 0)
    (hobj : TMap.Find Objects p = some o) (hlocked : o.IsLocked = true) :
    (M.BufferedNewState = 0 →
        UpdateStateMachine Env Objects M DeltaTime =
          .ok (M, [Event.UpdateState p DeltaTime, Event.OnUpdateStateMachine DeltaTime]))
    ∧ (∀ X : Nat, X ≠ 0 → IsRegistered Objects M X = true →
        ∃ M' ev, UpdateStateMachine Env Objects (ForceCallStateTransition M X) DeltaTime
            = .ok (M', ev) ∧ M'.ActiveState = X)
    ∧ (M.BufferedNewState = 0 →
        ∀ (ts : List FStateTransition) (i : Nat) (hi : i < ts.length),
          TMap.Find M.TransitionMap M.ActiveState = some ts →
          Fires Env ts[i] = true → (∀ u ∈ ts.take i, Fires Env u = false) →
          IsRegistered Objects M ts[i].TargetState = true →
          ∃ M' ev, UpdateStateMachine Env (TMap.Add Objects p (o.SetStateLocked false)) M DeltaTime
              = .ok (M', ev) ∧ M'.ActiveState = ts[i].TargetState) := by
  have hvalid : IsValid Objects p = true := by simp [IsValid, TMap.Contains, hp, hobj]
  have hat : StateAt Objects M.States M.ActiveState = .ok p :=
    (StateAt_eq_ok_iff _ _ _ _).2 ⟨hreg, hvalid⟩
  have hder : Deref Objects p = .ok o := by simp [Deref, hp, hobj]
  have hisreg : IsRegistered Objects M M.ActiveState = true :=
    (IsRegistered_iff _ _ _).2 ⟨p, hat⟩
  refine ⟨?_, ?_, ?_⟩
  · intro hbuf
    unfold UpdateStateMachine CommitBranches ConditionalGuard
    by_cases hc : TMap.Contains M.TransitionMap M.ActiveState = true
    · simp [hbuf, hc, TMap.Index, hreg, hvalid, hder, hlocked, hat]
    · simp [hbuf, hc, hat]
  · intro X hX0 hX
    obtain ⟨q, _, hst⟩ := UpdateStateMachine_forced Env Objects (ForceCallStateTransition M X)
      DeltaTime hX0 (Or.inr hisreg) hX
    exact ⟨_, _, hst, rfl⟩
  · intro hbuf ts i hi hts hfire hleast htarget
    have hobj' : TMap.Find (TMap.Add Objects p (o.SetStateLocked false)) p
        = some (o.SetStateLocked false) := by
      rw [TMap_Find_Add]; simp
    have hvalid' : IsValid (TMap.Add Objects p (o.SetStateLocked false)) p = true :=
      IsValid_Add Objects p p _ hvalid
    have hat' : StateAt (TMap.Add Objects p (o.SetStateLocked false)) M.States M.ActiveState
        = .ok p := (StateAt_eq_ok_iff _ _ _ _).2 ⟨hreg, hvalid'⟩
    have hder' : Deref (TMap.Add Objects p (o.SetStateLocked false)) p
        = .ok (o.SetStateLocked false) := by simp [Deref, hp, hobj']
    have hscan := UpdateStateMachine_scan Env (TMap.Add Objects p (o.SetStateLocked false)) M
      DeltaTime p (o.SetStateLocked false) ts hbuf hat' hder' rfl hts
    obtain ⟨hsplit, _⟩ := List_split_at ts i hi
    obtain ⟨q, _, hfirst⟩ := ScanTransitions_first Env
      (TMap.Add Objects p (o.SetStateLocked false)) M (ts.take i) ts[i]
      (ts.drop (i + 1)) hleast hfire
      (Or.inr (IsRegistered_Add Objects M p _ _ hisreg))
      (IsRegistered_Add Objects M p _ _ htarget)
    rw [← hsplit] at hfirst
    rw [hfirst] at hscan
    exact ⟨_, _, hscan, rfl⟩

/-- C3, at the scenario of the specification: state 1 is locked and the
condition of the transition 1 to 2 is true (v = 5); the tick keeps 1, a forced
transition to 3 is applied, and after unlocking the tick gives 2. -/
theorem C3_lock_suppresses_conditionals_not_force_witness :
    (UpdateStateMachine (CodeExampleEnv 1 5) (LockScenarioObjects true) LockScenarioMachine 0
      = .ok (LockScenarioMachine, [Event.UpdateState 10 0, Event.OnUpdateStateMachine 0]))
    ∧ (∃ M' ev, UpdateStateMachine (CodeExampleEnv 1 5) (LockScenarioObjects true)
          (ForceCallStateTransition LockScenarioMachine 3) 0 = .ok (M', ev)
        ∧ M'.ActiveState = 3)
    ∧ (∃ M' ev, UpdateStateMachine (CodeExampleEnv 1 5) (LockScenarioObjects false)
          LockScenarioMachine 0 = .ok (M', ev)
        ∧ M'.ActiveState = 2) :=
  have h := C3_lock_suppresses_conditionals_not_force (CodeExampleEnv 1 5)
    (LockScenarioObjects true) LockScenarioMachine 0 10 { StateMachine := 1, Locked := true }
    rfl (by decide) rfl rfl
  ⟨h.1 rfl, h.2.1 3 (by decide) (by decide),
   h.2.2 rfl [LockScenarioTransition] 0 (by decide) rfl (by decide) (by decide) (by decide)⟩

/-- C6, as stated, fails: after the initialisation of the example machine
(which ends with `ForceCallStateTransition 1`) one tick with v = 5 leaves the
active state 1, not 2, and one further tick with v = -1 leaves it 3, not 1. -/
theorem C6_counterexample :
    ActiveAfter (CodeExampleInit 1 ++ [CodeExampleTick 5]) = some 1
      ∧ ActiveAfter (CodeExampleInit 1 ++ [CodeExampleTick 5, CodeExampleTick (-1)]) = some 3
      ∧ ¬ (ActiveAfter (CodeExampleInit 1 ++ [CodeExampleTick 5]) = some 2
            ∧ ActiveAfter (CodeExampleInit 1 ++ [CodeExampleTick 5, CodeExampleTick (-1)])
                = some 1) := by
  refine ⟨rfl, rfl, ?_⟩
  rintro ⟨h, _⟩
  have h1 : ActiveAfter (CodeExampleInit 1 ++ [CodeExampleTick 5]) = some 1 := rfl
  rw [h1] at h
  cases h

/-- C6, amended. On the example machine, after the initialisation that ends
with `ForceCallStateTransition 1`, the first tick, whatever the test value,
applies the forced transition and the active state is 1; one further tick with
v = 5 makes it 2; one further tick with v = -1 makes it 1. -/
theorem C6_example_scenario (v0 : Int) :
    ActiveAfter (CodeExampleInit 1 ++ [CodeExampleTick v0]) = some 1
      ∧ ActiveAfter (CodeExampleInit 1 ++ [CodeExampleTick v0, CodeExampleTick 5]) = some 2
      ∧ ActiveAfter (CodeExampleInit 1 ++
          [CodeExampleTick v0, CodeExampleTick 5, CodeExampleTick (-1)]) = some 1 :=
  ⟨rfl, rfl, rfl⟩

/-- C8. Active state invariant: from a world in which every machine has
`ActiveState = 0` (in particular freshly constructed machines), after every
sequence of calls of the public interface on machines and state objects in
which each call completes, every machine has an active state that is 0 or a
key of its `States`. -/
theorem C8_active_state_invariant (W0 W : World) (calls : List Call) (ev : List Event)
    (hfresh : ∀ m M, TMap.Find W0.Machines m = some M → M.ActiveState = 0)
    (hrun : RunCalls W0 calls = .ok (W, ev)) :
    ∀ m M, TMap.Find W.Machines m = some M →
      M.ActiveState = 0 ∨ TMap.Contains M.States M.ActiveState = true := by
  have h0 : WorldInvariant W0 := fun m M hm => Or.inl (hfresh m M hm)
  exact RunCalls_invariant calls W0 W ev h0 hrun

/-- C8, at a fresh machine to which a state is added under 1, forced to 1 and
ticked: the active state 1 is a key of `States`. -/
theorem C8_active_state_invariant_witness :
    RunCalls { Machines := [(1, {})], Objects := [(10, {})] }
        [Call.AddNewStateExisting 1 1 10, Call.ForceCallStateTransition 1 1,
         Call.UpdateStateMachine 1 (fun _ _ => none) 0]
      = .ok ({ Machines := [(1, { States := [(1, 10)], ActiveState := 1 })],
               Objects := [(10, { StateMachine := 1 })] },
             [Event.STATEMACHINE_OnSetStateMachine 10, Event.EnterState 10 1,
              Event.OnStateChanged 0 1, Event.TransitionHappened true,
              Event.OnUpdateStateMachine 0])
      ∧ ((1 : Nat) = 0 ∨ TMap.Contains [(1, 10)] 1 = true) :=
  ⟨rfl,
   C8_active_state_invariant { Machines := [(1, {})], Objects := [(10, {})] }
    { Machines := [(1, { States := [(1, 10)], ActiveState := 1 })],
      Objects := [(10, { StateMachine := 1 })] }
    [Call.AddNewStateExisting 1 1 10, Call.ForceCallStateTransition 1 1,
     Call.UpdateStateMachine 1 (fun _ _ => none) 0]
    [Event.STATEMACHINE_OnSetStateMachine 10, Event.EnterState 10 1,
     Event.OnStateChanged 0 1, Event.TransitionHappened true, Event.OnUpdateStateMachine 0]
    (by
      intro m M h
      simp only [TMap.Find] at h
      split at h
      · cases h; rfl
      · cases h)
    rfl 1 { States := [(1, 10)], ActiveState := 1 } rfl⟩

/-- C9, as stated, fails: on a fresh machine at address 1 and a state object
at address 10 without owner, `AddNewStateExisting 0` completes, `States` then
has the key 0, and the owner reference of the state has changed from null to
the machine. -/
theorem C9_counterexample :
    ∃ W' ev,
      AddNewStateExisting { Machines := [(1, {})], Objects := [(10, {})] } 1 0 10 = .ok (W', ev)
      ∧ (TMap.Find W'.Machines 1).map (fun M => TMap.Contains M.States 0) = some true
      ∧ (TMap.Find W'.Objects 10).map USSM_StateBase.GetStateMachine = some 1
      ∧ (TMap.Find ([(10, {})] : ObjectHeap) 10).map USSM_StateBase.GetStateMachine = some 0 :=
  ⟨{ Machines := [(1, { States := [(0, 10)] })], Objects := [(10, { StateMachine := 1 })] },
   [Event.STATEMACHINE_OnSetStateMachine 10], rfl, rfl, rfl, rfl⟩

/-- C9, amended. Registering a state under the identity 0 is not rejected: for
a live machine and a live state object whose owner reference is null or
another live machine, `AddNewStateExisting 0` completes; afterwards `States`
of the machine stores the state under the key 0 (`GetState 0` returns it) and
the owner reference of the state is the machine. -/
theorem C9_add_state_zero_accepted (W : World) (this s : Nat) (M : USSM_StateMachine)
    (o : USSM_StateBase)
    (hM : TMap.Find W.Machines this = some M) (hs : s ≠ 0)
    (ho : TMap.Find W.Objects s = some o)
    (howner : o.StateMachine = 0 ∨
      (o.StateMachine ≠ this ∧ TMap.Contains W.Machines o.StateMachine = true)) :
    ∃ W' ev M' o', AddNewStateExisting W this 0 s = .ok (W', ev)
      ∧ TMap.Find W'.Machines this = some M'
      ∧ TMap.Find M'.States 0 = some s ∧ GetState M' 0 = s
      ∧ TMap.Find W'.Objects s = some o' ∧ o'.GetStateMachine = this := by
  have hget : ∀ St : TMap Nat Nat, TMap.Find (TMap.Add St 0 s) 0 = some s := by
    intro St; rw [TMap_Find_Add]; simp
  have hgs : GetState { M with States := TMap.Add M.States 0 s } 0 = s := by
    simp [GetState, TMap.Contains, hget]
  have hd : Deref W.Objects s = .ok o := by simp [Deref, hs, ho]
  unfold AddNewStateExisting STATEMACHINE_SetStateMachine
  simp only [hM, hd]
  by_cases h0 : o.StateMachine = 0
  · simp only [h0, ne_eq, not_true_eq_false, if_false]
    refine ⟨_, _, { M with States := TMap.Add M.States 0 s },
      { o with StateMachine := this }, rfl, ?_, hget _, hgs, ?_, rfl⟩
    · simp only; rw [TMap_Find_Add]; simp
    · simp only; rw [TMap_Find_Add]; simp
  · obtain ⟨hne, hc⟩ : o.StateMachine ≠ this ∧ TMap.Contains W.Machines o.StateMachine = true := by
      cases howner with
      | inl h => exact absurd h h0
      | inr h => exact h
    unfold TMap.Contains at hc
    cases hold : TMap.Find W.Machines o.StateMachine with
    | none => simp [hold] at hc
    | some Old =>
      have hfind : TMap.Find (TMap.Add W.Machines this { M with States := TMap.Add M.States 0 s })
          o.StateMachine = some Old := by
        rw [TMap_Find_Add]; simp [Ne.symm hne, hold]
      simp only [h0, ne_eq, not_false_eq_true, if_true, hfind]
      refine ⟨_, _, { M with States := TMap.Add M.States 0 s },
        { o with StateMachine := this }, rfl, ?_, hget _, hgs, ?_, rfl⟩
      · simp only
        rw [TMap_Find_Add, TMap_Find_Add]
        simp [hne]
      · simp only; rw [TMap_Find_Add]; simp

/-- C9 amended, at a state object owned by the machine at address 2 that is
added to the machine at address 1 under the identity 0. -/
theorem C9_add_state_zero_accepted_witness :
    ∃ W' ev M' o',
      AddNewStateExisting
          { Machines := [(1, {}), (2, { States := [(5, 10)] })],
            Objects := [(10, { StateID := 5, StateMachine := 2 })] } 1 0 10 = .ok (W', ev)
      ∧ TMap.Find W'.Machines 1 = some M'
      ∧ TMap.Find M'.States 0 = some 10 ∧ GetState M' 0 = 10
      ∧ TMap.Find W'.Objects 10 = some o' ∧ o'.GetStateMachine = 1 :=
  C9_add_state_zero_accepted
    { Machines := [(1, {}), (2, { States := [(5, 10)] })],
      Objects := [(10, { StateID := 5, StateMachine := 2 })] } 1 10 {}
    { StateID := 5, StateMachine := 2 } rfl (by decide) rfl (Or.inr ⟨by decide, rfl⟩)

/-- C10, as stated, fails: on a fresh machine at address 1, registering the
transition with origin 0 and target 0 changes `TransitionMap`, which then has
a sequence under the key 0 holding a transition with `TargetState = 0`; so do
`RegisterTransitionLocal` and `RegisterMultipleTransitions`. -/
theorem C10_counterexample :
    (RegisterTransition 1 {} (FStateTransition.Make 0 0 "Condition" 0)).TransitionMap
        = [(0, [StoredTransition 1 (FStateTransition.Make 0 0 "Condition" 0)])]
      ∧ (RegisterTransition 1 {} (FStateTransition.Make 0 0 "Condition" 0)).TransitionMap
          ≠ ({} : USSM_StateMachine).TransitionMap
      ∧ (StoredTransition 1 (FStateTransition.Make 0 0 "Condition" 0)).TargetState = 0
      ∧ (RegisterTransitionLocal 1 {} 0 2 "Condition").TransitionMap
          ≠ ({} : USSM_StateMachine).TransitionMap
      ∧ (RegisterMultipleTransitions 1 {} [FStateTransition.Make 2 0 "Condition" 0]).TransitionMap
          ≠ ({} : USSM_StateMachine).TransitionMap := by
  refine ⟨rfl, ?_, rfl, ?_, ?_⟩ <;> decide

/-- C10, amended. Registering a transition that uses the identity 0 is not
rejected: for every machine and every transition whose origin is 0 or whose
target is 0, `RegisterTransition` appends the stored form of the transition
(with its target) to the sequence of its origin and leaves the rest of the
machine as it was, so that afterwards `TransitionMap` has the key 0 or the
sequence of the origin holds a transition with `TargetState = 0`;
`RegisterTransitionLocal` and `RegisterMultipleTransitions` of the one element
list do the same. -/
theorem C10_transition_with_zero_accepted (this : Nat) (M : USSM_StateMachine)
    (t : FStateTransition) (hzero : t.OriginState = 0 ∨ t.TargetState = 0) :
    TransitionsOf (RegisterTransition this M t) t.OriginState
        = TransitionsOf M t.OriginState ++ [StoredTransition this t]
      ∧ (StoredTransition this t).TargetState = t.TargetState
      ∧ (TMap.Contains (RegisterTransition this M t).TransitionMap 0 = true
          ∨ ∃ u ∈ TransitionsOf (RegisterTransition this M t) t.OriginState, u.TargetState = 0)
      ∧ (∀ k, k ≠ t.OriginState →
          TMap.Find (RegisterTransition this M t).TransitionMap k = TMap.Find M.TransitionMap k)
      ∧ (RegisterTransition this M t).States = M.States
      ∧ (RegisterTransition this M t).ActiveState = M.ActiveState
      ∧ (RegisterTransition this M t).BufferedNewState = M.BufferedNewState
      ∧ RegisterMultipleTransitions this M [t] = RegisterTransition this M t
      ∧ RegisterTransitionLocal this M t.OriginState t.TargetState t.ConditionFunctionName
          = RegisterTransition this M
              (FStateTransition.Make t.OriginState t.TargetState t.ConditionFunctionName this) := by
  have happ : TransitionsOf (RegisterTransition this M t) t.OriginState
      = TransitionsOf M t.OriginState ++ [StoredTransition this t] := by
    unfold RegisterTransition
    rw [RegisterTransitionSourced_eq]
    unfold TransitionsOf
    simp only
    rw [TMap_Find_Add]
    simp
  refine ⟨happ, rfl, ?_, ?_, ?_, ?_, ?_, ?_, rfl⟩
  · cases hzero with
    | inl ho =>
      left
      unfold RegisterTransition
      rw [RegisterTransitionSourced_eq]
      simp only
      rw [TMap_Contains_Add]
      simp [ho]
    | inr ht =>
      right
      refine ⟨StoredTransition this t, ?_, ht⟩
      rw [happ]
      simp
  · intro k hk
    unfold RegisterTransition
    rw [RegisterTransitionSourced_eq]
    simp only
    rw [TMap_Find_Add]
    simp [Ne.symm hk]
  · unfold RegisterTransition; rw [RegisterTransitionSourced_eq]
  · unfold RegisterTransition; rw [RegisterTransitionSourced_eq]
  · unfold RegisterTransition; rw [RegisterTransitionSourced_eq]
  · simp [RegisterMultipleTransitions, RegisterTransition]

/-- C10 amended, at the transition with origin 0 and target 0 registered on a
machine that already has a transition under the key 0. -/
theorem C10_transition_with_zero_accepted_witness :
    TransitionsOf (RegisterTransition 1 (RegisterTransitionLocal 1 {} 0 2 "First")
        (FStateTransition.Make 0 0 "Second" 0)) 0
      = [StoredTransition 1 (FStateTransition.Make 0 2 "First" 1),
         StoredTransition 1 (FStateTransition.Make 0 0 "Second" 0)] :=
  (C10_transition_with_zero_accepted 1 (RegisterTransitionLocal 1 {} 0 2 "First")
    (FStateTransition.Make 0 0 "Second" 0) (Or.inl rfl)).1

/-- C11. Removal clears active and keeps transitions: on a machine whose
active state `a` is a key of `States`, `RemoveState a` sets `ActiveState` to 0
and removes the key `a` (`GetState a` returns null); every other key of
`States` keeps its value, and `TransitionMap` (with the transitions from and
to `a`) and `BufferedNewState` are unchanged. -/
theorem C11_removal_clears_active_keeps_transitions (M : USSM_StateMachine)
    (hreg : TMap.Contains M.States M.ActiveState = true) :
    (RemoveState M M.ActiveState).ActiveState = 0
      ∧ TMap.Contains (RemoveState M M.ActiveState).States M.ActiveState = false
      ∧ GetState (RemoveState M M.ActiveState) M.ActiveState = 0
      ∧ (∀ k, k ≠ M.ActiveState →
          TMap.Find (RemoveState M M.ActiveState).States k = TMap.Find M.States k)
      ∧ (RemoveState M M.ActiveState).TransitionMap = M.TransitionMap
      ∧ (RemoveState M M.ActiveState).BufferedNewState = M.BufferedNewState := by
  have hrm : RemoveState M M.ActiveState =
      { M with ActiveState := 0, States := TMap.Remove M.States M.ActiveState } := by
    unfold RemoveState
    simp [hreg]
  rw [hrm]
  refine ⟨rfl, ?_, ?_, ?_, rfl, rfl⟩
  · simp [TMap.Contains, TMap_Find_Remove_self]
  · simp [GetState, TMap.Contains, TMap_Find_Remove_self]
  · intro k hk
    exact TMap_Find_Remove _ _ _ (Ne.symm hk)

/-- C11, at a machine with the states 1 and 2, the transitions 1 to 2 and 2 to
1, and the active state 1: after `RemoveState 1` the state 2 and both
transitions are still there. -/
theorem C11_removal_clears_active_keeps_transitions_witness :
    RemoveState (RegisterTransitionLocal 1 (RegisterTransitionLocal 1
        { States := [(1, 10), (2, 20)], ActiveState := 1 } 1 2 "A") 2 1 "B") 1
      = { States := [(2, 20)], ActiveState := 0,
          TransitionMap := [(1, [StoredTransition 1 (FStateTransition.Make 1 2 "A" 1)]),
                            (2, [StoredTransition 1 (FStateTransition.Make 2 1 "B" 1)])] }
      ∧ (RemoveState (RegisterTransitionLocal 1 (RegisterTransitionLocal 1
        { States := [(1, 10), (2, 20)], ActiveState := 1 } 1 2 "A") 2 1 "B") 1).ActiveState = 0 :=
  ⟨rfl, (C11_removal_clears_active_keeps_transitions (RegisterTransitionLocal 1
      (RegisterTransitionLocal 1 { States := [(1, 10), (2, 20)], ActiveState := 1 } 1 2 "A")
      2 1 "B") rfl).1⟩

/-- C12. No-op removal: in every machine state reached from a world of
machines with `ActiveState = 0` by a sequence of completed calls, `RemoveState`
of an identity that is not a key of `States` returns the machine unchanged
(`States`, `ActiveState`, `BufferedNewState` and `TransitionMap`), and applying
it twice equals applying it once. -/
theorem C12_noop_removal (W0 W : World) (calls : List Call) (ev : List Event)
    (this InStateID : Nat) (M : USSM_StateMachine)
    (hfresh : ∀ m M0, TMap.Find W0.Machines m = some M0 → M0.ActiveState = 0)
    (hrun : RunCalls W0 calls = .ok (W, ev))
    (hM : TMap.Find W.Machines this = some M)
    (hid : TMap.Contains M.States InStateID = false) :
    RemoveState M InStateID = M
      ∧ RemoveState (RemoveState M InStateID) InStateID = RemoveState M InStateID := by
  have h0 : WorldInvariant W0 := fun m M0 hm => Or.inl (hfresh m M0 hm)
  have hinv : ActiveStateInvariant M := RunCalls_invariant calls W0 W ev h0 hrun this M hM
  have h1 := RemoveState_absent M InStateID hinv hid
  exact ⟨h1, by rw [h1, h1]⟩

/-- C12, at the example machine after its initialisation and one tick: the
identity 7 is not registered and `RemoveState 7` changes nothing. -/
theorem C12_noop_removal_witness :
    RemoveState { (RegisterMultipleTransitions 1 { States := [(1, 2), (2, 3), (3, 4)] }
        [FStateTransition.Make 1 2 "Condition_One_Two" 1,
         FStateTransition.Make 1 3 "Condition_One_Three" 1,
         FStateTransition.Make 2 1 "Condition_Two_One" 1,
         FStateTransition.Make 3 1 "Condition_Three_One" 1]) with ActiveState := 1 } 7
      = { (RegisterMultipleTransitions 1 { States := [(1, 2), (2, 3), (3, 4)] }
        [FStateTransition.Make 1 2 "Condition_One_Two" 1,
         FStateTransition.Make 1 3 "Condition_One_Three" 1,
         FStateTransition.Make 2 1 "Condition_Two_One" 1,
         FStateTransition.Make 3 1 "Condition_Three_One" 1]) with ActiveState := 1 } :=
  (C12_noop_removal FreshWorld
    { Machines := [(1, { (RegisterMultipleTransitions 1 { States := [(1, 2), (2, 3), (3, 4)] }
        [FStateTransition.Make 1 2 "Condition_One_Two" 1,
         FStateTransition.Make 1 3 "Condition_One_Three" 1,
         FStateTransition.Make 2 1 "Condition_Two_One" 1,
         FStateTransition.Make 3 1 "Condition_Three_One" 1]) with ActiveState := 1 })],
      Objects := [(2, { StateMachine := 1 }), (3, { StateMachine := 1 }),
                  (4, { StateMachine := 1 })] }
    (CodeExampleInit 1 ++ [CodeExampleTick 5])
    [Event.STATEMACHINE_OnSetStateMachine 2, Event.STATEMACHINE_OnSetStateMachine 3,
     Event.STATEMACHINE_OnSetStateMachine 4, Event.EnterState 2 1, Event.OnStateChanged 0 1,
     Event.TransitionHappened true, Event.OnUpdateStateMachine 0]
    1 7 _
    (by
      intro m M0 h
      simp only [FreshWorld, TMap.Find] at h
      split at h
      · cases h; rfl
      · cases h)
    rfl rfl rfl).1

/-- C13, as stated, fails: on the machine with the single state 1, active and
unlocked, and the transition 1 to 2 whose condition is true (v = 5) and whose
target 2 is not a key of `States`, the tick does not complete with the active
state still 1: it faults at the lookup of the missing key. -/
theorem C13_counterexample :
    TMap.Contains DanglingScenarioMachine.States 2 = false
      ∧ UpdateStateMachine (CodeExampleEnv 1 5) (LockScenarioObjects false)
          DanglingScenarioMachine 0 = .error Fault.MissingKey
      ∧ ¬ ∃ M' ev, UpdateStateMachine (CodeExampleEnv 1 5) (LockScenarioObjects false)
            DanglingScenarioMachine 0 = .ok (M', ev) ∧ M'.ActiveState = 1 := by
  refine ⟨rfl, rfl, ?_⟩
  rintro ⟨M', ev, h, _⟩
  have h2 : UpdateStateMachine (CodeExampleEnv 1 5) (LockScenarioObjects false)
      DanglingScenarioMachine 0 = .error Fault.MissingKey := rfl
  rw [h2] at h
  cases h

/-- C13, amended. On a machine with no pending forced state and a registered,
unlocked active state with transitions `ts`: (1) if the first transition whose
condition fires has a target that is not a key of `States`, the tick does not
complete, it faults at the lookup of the missing key in `StateTransition`;
(2) if the first transition whose condition fires has a registered target, the
tick completes and commits to it, whatever dangling transitions the sequence
holds elsewhere. -/
theorem C13_dangling_transition_faults (Env : CondEnv) (Objects : ObjectHeap)
    (M : USSM_StateMachine) (DeltaTime p : Nat) (o : USSM_StateBase)
    (ts : List FStateTransition)
    (hbuf : M.BufferedNewState = 0)
    (hreg : TMap.Find M.States M.ActiveState = some p) (hp : p ≠ 0)
    (hobj : TMap.Find Objects p = some o) (hunl : o.IsLocked = false)
    (hts : TMap.Find M.TransitionMap M.ActiveState = some ts) :
    (∀ (i : Nat) (hi : i < ts.length), Fires Env ts[i] = true →
        (∀ u ∈ ts.take i, Fires Env u = false) →
        TMap.Contains M.States ts[i].TargetState = false →
        UpdateStateMachine Env Objects M DeltaTime = .error Fault.MissingKey)
    ∧ (∀ (i : Nat) (hi : i < ts.length), Fires Env ts[i] = true →
        (∀ u ∈ ts.take i, Fires Env u = false) →
        IsRegistered Objects M ts[i].TargetState = true →
        ∃ M' ev, UpdateStateMachine Env Objects M DeltaTime = .ok (M', ev)
          ∧ M'.ActiveState = ts[i].TargetState) := by
  have hvalid : IsValid Objects p = true := by simp [IsValid, TMap.Contains, hp, hobj]
  have hat : StateAt Objects M.States M.ActiveState = .ok p :=
    (StateAt_eq_ok_iff _ _ _ _).2 ⟨hreg, hvalid⟩
  have hder : Deref Objects p = .ok o := by simp [Deref, hp, hobj]
  have hactive : M.ActiveState = 0 ∨ IsRegistered Objects M M.ActiveState = true :=
    Or.inr ((IsRegistered_iff _ _ _).2 ⟨p, hat⟩)
  have hscan := UpdateStateMachine_scan Env Objects M DeltaTime p o ts hbuf hat hder hunl hts
  constructor
  · intro i hi hfire hleast hmiss
    obtain ⟨hsplit, _⟩ := List_split_at ts i hi
    have hfault := ScanTransitions_first_missing Env Objects M (ts.take i) ts[i]
      (ts.drop (i + 1)) hleast hfire hactive hmiss
    rw [← hsplit] at hfault
    rw [hfault] at hscan
    exact hscan
  · intro i hi hfire hleast htarget
    obtain ⟨hsplit, _⟩ := List_split_at ts i hi
    obtain ⟨q, _, hfirst⟩ := ScanTransitions_first Env Objects M (ts.take i) ts[i]
      (ts.drop (i + 1)) hleast hfire hactive htarget
    rw [← hsplit] at hfirst
    rw [hfirst] at hscan
    exact ⟨_, _, hscan, rfl⟩

/-- C13 amended, at the dangling transition scenario with v = 5. -/
theorem C13_dangling_transition_faults_witness :
    UpdateStateMachine (CodeExampleEnv 1 5) (LockScenarioObjects false)
        DanglingScenarioMachine 0 = .error Fault.MissingKey :=
  (C13_dangling_transition_faults (CodeExampleEnv 1 5) (LockScenarioObjects false)
    DanglingScenarioMachine 0 10 { StateMachine := 1 } [LockScenarioTransition]
    rfl rfl (by decide) rfl rfl rfl).1 0 (by decide) (by decide) (by decide) (by decide)

/-- C14. Re-parenting does not detach the state from its old machine: the
machine at address 1 creates a state under the identity 5 with `AddNewState`
(the object is at address 3), then the machine at address 2 adds that state
under the identity 7.  Afterwards the owner reference of the state is machine
2 and machine 2 returns it for 7, but machine 1 still returns it for 5: the
state is a value of `States` in both machines. -/
theorem C14_reparenting_keeps_old_entry :
    RunCalls TwoMachineWorld [Call.AddNewState 1 5, Call.AddNewStateExisting 2 7 3]
      = .ok ({ Machines := [(1, { States := [(5, 3)] }), (2, { States := [(7, 3)] })],
               Objects := [(3, { StateID := 0, StateMachine := 2 })] },
             [Event.STATEMACHINE_OnSetStateMachine 3, Event.STATEMACHINE_OnSetStateMachine 3])
      ∧ GetState { States := [(5, 3)] } 5 = 3
      ∧ GetState { States := [(7, 3)] } 7 = 3 :=
  ⟨rfl, rfl, rfl⟩

/-- C15. The identity of a state is not set at registration: after
`AddNewStateExisting` under the identity 5 of a new state object, and after
`AddNewState` under the identity 5, `GetStateID` of the state still returns 0. -/
theorem C15_state_id_not_set :
    AddNewStateExisting { Machines := [(1, {})], Objects := [(10, {})] } 1 5 10
      = .ok ({ Machines := [(1, { States := [(5, 10)] })],
               Objects := [(10, { StateID := 0, StateMachine := 1 })] },
             [Event.STATEMACHINE_OnSetStateMachine 10])
      ∧ AddNewState FreshWorld 1 5
        = .ok ({ Machines := [(1, { States := [(5, 2)] })],
                 Objects := [(2, { StateID := 0, StateMachine := 1 })] },
               [Event.STATEMACHINE_OnSetStateMachine 2])
      ∧ ({ StateID := 0, StateMachine := 1 } : USSM_StateBase).GetStateID = 0 :=
  ⟨rfl, rfl, rfl⟩

/-- C16. Batch registration preserves the order per origin: after
`RegisterMultipleTransitions L` the sequence of every origin `o` is the old
sequence followed by the stored forms of the elements of `L` with origin `o`,
in their order in `L`; the stored form keeps the target and the condition
name, and the owner with the machine in place of a null owner; and the batch
gives the same machine as `RegisterTransition` on each element in list order. -/
theorem C16_batch_registration_order (this : Nat) (M : USSM_StateMachine)
    (L : List FStateTransition) (o : Nat) :
    TransitionsOf (RegisterMultipleTransitions this M L) o =
        TransitionsOf M o ++
          (L.filter (fun t => decide (t.OriginState = o))).map (StoredTransition this)
      ∧ (∀ t : FStateTransition,
          (StoredTransition this t).TargetState = t.TargetState
          ∧ (StoredTransition this t).ConditionFunctionName = t.ConditionFunctionName
          ∧ (StoredTransition this t).CondtionFunctionOwner
              = (if t.CondtionFunctionOwner = 0 then this else t.CondtionFunctionOwner))
      ∧ RegisterMultipleTransitions this M L = RegisterEachInOrder this M L :=
  ⟨TransitionsOf_RegisterMultipleTransitions this L o M, fun _ => ⟨rfl, rfl, rfl⟩,
   RegisterMultipleTransitions_eq_foldl this L M⟩

/-- C17. Auto registration covers every ordered pair: for a list of `n` names
with `n` at most 255 and fuel of at least `2 * n + 1`, `AutoTransitionRegistration`
ends without a fault; the sequence of each origin `i < n` is the old sequence
followed by `n` transitions with the targets `0, .., n - 1` in ascending order
(`n * n` in total, the pairs with `i = j` and with the index 0 included); the
transition for the pair `(i, j)` has the target `j`, the condition name
`prefix ++ names[i] ++ connector ++ names[j]` and the machine as owner and as
the object of its delegate; the sequences of the origins from `n` on, `States`,
`ActiveState` and `BufferedNewState` are unchanged. -/
theorem C17_auto_registration_all_pairs (this : Nat) (M : USSM_StateMachine)
    (StateNames : List String) (P C : String) (fuel : Nat)
    (hn : StateNames.length ≤ 255) (hfuel : 2 * StateNames.length + 1 ≤ fuel) :
    ∃ M', AutoTransitionRegistration this M StateNames P C fuel = some (.ok M')
      ∧ (∀ i, i < StateNames.length →
          TransitionsOf M' i = TransitionsOf M i ++
            (List.range StateNames.length).map (AutoTransition this StateNames P C i))
      ∧ (∀ (i j : Nat) (hi : i < StateNames.length) (hj : j < StateNames.length),
          (AutoTransition this StateNames P C i j).TargetState = j
          ∧ (AutoTransition this StateNames P C i j).ConditionFunctionName
              = P ++ StateNames[i] ++ C ++ StateNames[j]
          ∧ (AutoTransition this StateNames P C i j).CondtionFunctionOwner = this
          ∧ (AutoTransition this StateNames P C i j).ConditionDelegate
              = { Object := this, FunctionName := P ++ StateNames[i] ++ C ++ StateNames[j] })
      ∧ (∀ i, StateNames.length ≤ i → TransitionsOf M' i = TransitionsOf M i)
      ∧ M'.States = M.States ∧ M'.ActiveState = M.ActiveState
      ∧ M'.BufferedNewState = M.BufferedNewState := by
  obtain ⟨M', hM', htr, hs, ha, hb⟩ := AutoOuterLoop_spec this StateNames P C hn
    StateNames.length 0 fuel M (by omega) (by omega)
  refine ⟨M', hM', ?_, ?_, ?_, hs, ha, hb⟩
  · intro i hi
    rw [htr i]
    have h : 0 ≤ i ∧ i < 0 + StateNames.length := by omega
    rw [if_pos h]
  · intro i j hi hj
    simp [AutoTransition, StoredTransition, FStateTransition.Make,
      List.getElem?_eq_getElem hi, List.getElem?_eq_getElem hj]
  · intro i hi
    rw [htr i]
    have h : ¬ (0 ≤ i ∧ i < 0 + StateNames.length) := by omega
    rw [if_neg h]

/-- C17, at the names of the example machine's comment, "None" and "One",
with the convention "Condition_" and "_". -/
theorem C17_auto_registration_all_pairs_witness :
    ∃ M', AutoTransitionRegistration 1 {} ["None", "One"] "Condition_" "_" 5 = some (.ok M')
      ∧ TransitionsOf M' 0 =
          [AutoTransition 1 ["None", "One"] "Condition_" "_" 0 0,
           AutoTransition 1 ["None", "One"] "Condition_" "_" 0 1]
      ∧ TransitionsOf M' 1 =
          [AutoTransition 1 ["None", "One"] "Condition_" "_" 1 0,
           AutoTransition 1 ["None", "One"] "Condition_" "_" 1 1]
      ∧ (AutoTransition 1 ["None", "One"] "Condition_" "_" 1 0).ConditionFunctionName
          = "Condition_One_None" :=
  have h := C17_auto_registration_all_pairs 1 {} ["None", "One"] "Condition_" "_" 5
    (by decide) (by decide)
  match h with
  | ⟨M', h1, h2, _, _⟩ => ⟨M', h1, h2 0 (by decide), h2 1 (by decide), by decide⟩

/-- C18, as stated, fails: with no function resolvable on any object,
registering the transition 1 to 2 with the condition name "NoSuchFunction" on
a fresh machine appends it, and the table then holds a transition whose
delegate is not bound. -/
theorem C18_counterexample :
    (RegisterTransition 1 {} (FStateTransition.Make 1 2 "NoSuchFunction" 0)).TransitionMap
        = [(1, [StoredTransition 1 (FStateTransition.Make 1 2 "NoSuchFunction" 0)])]
      ∧ (StoredTransition 1 (FStateTransition.Make 1 2 "NoSuchFunction" 0)).ConditionDelegate.IsBound
          (fun _ _ => none) = false :=
  ⟨rfl, rfl⟩

/-- C18, amended. Binding failures are not reported at registration: for
every machine and every transition whose condition function cannot be
resolved on its owner (the machine itself for a null owner),
`RegisterTransition`, which does not consult the environment of condition
functions, appends the transition to the sequence of its origin like any
other; the stored transition is in the table with a delegate that is not
bound, and its condition does not fire. -/
theorem C18_binding_failure_not_reported (Env : CondEnv) (this : Nat) (M : USSM_StateMachine)
    (t : FStateTransition)
    (hunbound : Env (if t.CondtionFunctionOwner = 0 then this else t.CondtionFunctionOwner)
      t.ConditionFunctionName = none) :
    TransitionsOf (RegisterTransition this M t) t.OriginState
        = TransitionsOf M t.OriginState ++ [StoredTransition this t]
      ∧ (StoredTransition this t).ConditionDelegate.IsBound Env = false
      ∧ Fires Env (StoredTransition this t) = false := by
  have hb : (StoredTransition this t).ConditionDelegate.IsBound Env = false := by
    simp [FTransitionConditionDelegate.IsBound, StoredTransition, hunbound]
  refine ⟨?_, hb, Fires_of_unbound Env _ hb⟩
  unfold RegisterTransition
  rw [TransitionsOf_RegisterTransitionSourced]
  simp

/-- C18 amended, at the example machine's environment and a condition name
that is no function of the machine. -/
theorem C18_binding_failure_not_reported_witness :
    TransitionsOf (RegisterTransition 1 {} (FStateTransition.Make 1 2 "NoSuchFunction" 0)) 1
        = [StoredTransition 1 (FStateTransition.Make 1 2 "NoSuchFunction" 0)]
      ∧ (StoredTransition 1 (FStateTransition.Make 1 2 "NoSuchFunction" 0)).ConditionDelegate.IsBound
          (CodeExampleEnv 1 5) = false :=
  have h := C18_binding_failure_not_reported (CodeExampleEnv 1 5) 1 {}
    (FStateTransition.Make 1 2 "NoSuchFunction" 0) (by decide)
  ⟨h.1, h.2.1⟩

/-- C20, as stated, fails: the machine whose only state is stored under 1 and
is active satisfies every condition of the claim (no key 0, `BufferedNewState`
0, `ActiveState` a key of `States`, no transition), but when the pointer stored
under 1 refers to no live object the tick does not complete: line 48 goes
through that pointer and faults. -/
theorem C20_counterexample :
    WellFormed DeadPointerMachine
      ∧ UpdateStateMachine (fun _ _ => none) [] DeadPointerMachine 0
          = .error Fault.NullPointer
      ∧ ¬ ∃ M' ev, UpdateStateMachine (fun _ _ => none) [] DeadPointerMachine 0
            = .ok (M', ev) := by
  refine ⟨⟨rfl, Or.inl rfl, Or.inl rfl, ?_⟩, rfl, ?_⟩
  · intro k ts t hk _
    simp [DeadPointerMachine, TMap.Find] at hk
  · rintro ⟨M', ev, h⟩
    have h2 : UpdateStateMachine (fun _ _ => none) [] DeadPointerMachine 0
        = .error Fault.NullPointer := rfl
    rw [h2] at h
    cases h

/-- C20, amended. Tick safety on well-formed machines: for a well-formed
machine (no key 0 in `States`; `BufferedNewState` 0 or a key; `ActiveState` a
key, or 0 with `BufferedNewState` a key; every transition target a key),
(1) the tick looks up no missing key in `States` or `TransitionMap`: the only
fault it can end with is that of a pointer that is not live; (2) whenever the
tick completes, the machine after it is well-formed again, its `ActiveState`
is a key of `States` and its `BufferedNewState` is 0; (3) when every pointer
stored in `States` refers to a live state object, the tick completes without
a fault, with the post-state of (2) and the pointers still live. -/
theorem C20_tick_safety (Env : CondEnv) (Objects : ObjectHeap) (M : USSM_StateMachine)
    (DeltaTime : Nat) (hwf : WellFormed M) :
    (∀ e, UpdateStateMachine Env Objects M DeltaTime = .error e → e = Fault.NullPointer)
      ∧ (∀ M' ev, UpdateStateMachine Env Objects M DeltaTime = .ok (M', ev) →
          WellFormed M' ∧ TMap.Contains M'.States M'.ActiveState = true
            ∧ M'.BufferedNewState = 0)
      ∧ (StatesLive Objects M →
          ∃ M' ev, UpdateStateMachine Env Objects M DeltaTime = .ok (M', ev)
            ∧ WellFormed M' ∧ StatesLive Objects M'
            ∧ TMap.Contains M'.States M'.ActiveState = true
            ∧ M'.BufferedNewState = 0) := by
  have hpost : ∀ M' ev, UpdateStateMachine Env Objects M DeltaTime = .ok (M', ev) →
      M'.States = M.States ∧ WellFormed M'
        ∧ TMap.Contains M'.States M'.ActiveState = true ∧ M'.BufferedNewState = 0 := by
    intro M' ev hok
    obtain ⟨hs, ht, hb, ha⟩ := UpdateStateMachine_post Env Objects M M' DeltaTime ev hwf hok
    obtain ⟨hno0, _, _, htar⟩ := hwf
    refine ⟨hs, ⟨?_, Or.inl hb, Or.inl ?_, ?_⟩, ?_, hb⟩
    · rw [hs]; exact hno0
    · rw [hs]; exact ha
    · intro k ts t hk hmem
      rw [hs]
      rw [ht] at hk
      exact htar k ts t hk hmem
    · rw [hs]; exact ha
  refine ⟨fun e h => UpdateStateMachine_error_null Env Objects M DeltaTime hwf e h, ?_, ?_⟩
  · intro M' ev hok
    exact (hpost M' ev hok).2
  · intro hlive
    obtain ⟨M', ev, hok, _⟩ := UpdateStateMachine_total Env Objects M DeltaTime hwf hlive
    obtain ⟨hs, hwf', ha, hb⟩ := hpost M' ev hok
    refine ⟨M', ev, hok, hwf', ?_, ha, hb⟩
    intro k p hk
    rw [hs] at hk
    exact hlive k p hk

/-- C20 amended, at the lock scenario machine, unlocked, with v = 5: the tick
completes and commits to 2. -/
theorem C20_tick_safety_witness :
    ∃ M' ev, UpdateStateMachine (CodeExampleEnv 1 5) (LockScenarioObjects false)
        LockScenarioMachine 0 = .ok (M', ev)
      ∧ WellFormed M' ∧ StatesLive (LockScenarioObjects false) M'
      ∧ TMap.Contains M'.States M'.ActiveState = true
      ∧ M'.BufferedNewState = 0 :=
  (C20_tick_safety (CodeExampleEnv 1 5) (LockScenarioObjects false) LockScenarioMachine 0
    ⟨rfl, Or.inl rfl, Or.inl rfl, by
      intro k ts t hk hmem
      simp only [LockScenarioMachine, TMap.Find] at hk
      split at hk
      · cases hk
        simp only [List.mem_singleton] at hmem
        subst hmem
        rfl
      · cases hk⟩).2.2
    (by
      intro k p hk
      simp only [LockScenarioMachine, TMap.Find] at hk
      split at hk
      · cases hk; rfl
      · split at hk
        · cases hk; rfl
        · split at hk
          · cases hk; rfl
          · cases hk)

/-- C21. Re-adding a state under its own identity loses it: on a fresh machine
the state at address 10 is added under 5 and `GetState 5` returns it; the host
sets its identity to 5; when the state is added under 5 again, `States.Add` is
followed by `RemoveState 5` on the same machine, so that `States` is empty and
`GetState 5` returns null.  In the other cases the state is retrievable: when
it has no owner, when its owner is another live machine, and when its owner is
the machine itself and its `StateID` is not the identity (an occupied identity
is overwritten). -/
theorem C21_readding_loses_state :
    RunCalls ReAddWorld (ReAddCalls.take 2)
        = .ok ({ Machines := [(1, { States := [(5, 10)] })],
                 Objects := [(10, { StateID := 5, StateMachine := 1 })] },
               [Event.STATEMACHINE_OnSetStateMachine 10])
      ∧ GetState { States := [(5, 10)] } 5 = 10
      ∧ RunCalls ReAddWorld ReAddCalls
        = .ok ({ Machines := [(1, { States := [] })],
                 Objects := [(10, { StateID := 5, StateMachine := 1 })] },
               [Event.STATEMACHINE_OnSetStateMachine 10,
                Event.STATEMACHINE_OnSetStateMachine 10])
      ∧ GetState { States := [] } 5 = 0
      ∧ (∀ (W : World) (this InStateID s : Nat) (M : USSM_StateMachine) (o : USSM_StateBase),
          TMap.Find W.Machines this = some M → s ≠ 0 → TMap.Find W.Objects s = some o →
          (o.StateMachine = 0
            ∨ (o.StateMachine ≠ this ∧ TMap.Contains W.Machines o.StateMachine = true)
            ∨ (o.StateMachine = this ∧ o.GetStateID ≠ InStateID)) →
          ∃ W' ev M', AddNewStateExisting W this InStateID s = .ok (W', ev)
            ∧ TMap.Find W'.Machines this = some M' ∧ GetState M' InStateID = s) :=
  ⟨rfl, rfl, rfl, rfl,
   fun W this InStateID s M o hM hs ho howner =>
     AddNewStateExisting_retrievable W this InStateID s M o hM hs ho howner⟩

/-- C22. Auto registration does not end on 256 or more names: for such a list
the result is `none` for every amount of fuel, because the `uint8` counter of
the inner loop wraps from 255 to 0 and stays below the number of names.  For
every list, `StateNames` is read inside the list only (no fault for any fuel),
and for at most 255 names the registration ends with fuel `2 * n + 1`. -/
theorem C22_auto_registration_diverges (this : Nat) (M : USSM_StateMachine)
    (StateNames : List String) (P C : String) :
    (256 ≤ StateNames.length →
        ∀ fuel, AutoTransitionRegistration this M StateNames P C fuel = none)
      ∧ (∀ fuel e, AutoTransitionRegistration this M StateNames P C fuel ≠ some (.error e))
      ∧ (StateNames.length ≤ 255 →
          ∃ M', AutoTransitionRegistration this M StateNames P C (2 * StateNames.length + 1)
            = some (.ok M')) := by
  refine ⟨?_, ?_, ?_⟩
  · intro hn fuel
    exact AutoOuterLoop_diverges this StateNames P C hn fuel M
  · intro fuel e
    exact AutoOuterLoop_no_fault this StateNames P C fuel 0 M e
  · intro hn
    obtain ⟨M', hM', _⟩ := AutoOuterLoop_spec this StateNames P C hn StateNames.length 0
      (2 * StateNames.length + 1) M (by omega) (by omega)
    exact ⟨M', hM'⟩

/-- C22, at a list of 256 names on a fresh machine, with fuel 100000. -/
theorem C22_auto_registration_diverges_witness :
    AutoTransitionRegistration 1 {} (List.replicate 256 "S") "Condition_" "_" 100000 = none :=
  (C22_auto_registration_diverges 1 {} (List.replicate 256 "S") "Condition_" "_").1
    (le_of_eq (List.length_replicate 256 "S").symm) 100000

end SSM
